import Mathlib

/-!
Shallow embedding of the `fix_engine` crate (FIX 4.2 session and message
engine) for checking its natural-language specification.

Rust `String`s are modelled as `List Char` (`FStr`); `len()` and checksum
arithmetic work on the UTF-8 byte encoding, modelled by `charUtf8Bytes`.
`HashMap`/`IndexMap` values that the code only ever queries or iterates are
modelled as association lists; where the code iterates a `HashMap` (whose
iteration order is unspecified) the list order stands for one arbitrary
iteration order, and theorems quantify over all lists.  Machine integers
(`u8`/`u32`/`u64`) are `Nat` with explicit `% 2^w` / saturation where the
source wraps or saturates (release-mode semantics).  I/O (sockets, files,
clocks) is passed in as data: the current UTC timestamp string is a `now`
parameter, file reads are `Option` inputs, sends become explicit actions.
-/

namespace FixEngine

/-- Rust `String` (a UTF-8 text), modelled as its character sequence. -/
abbrev FStr := List Char

/-- `HashMap::get` / first-match association-list lookup. -/
def alookup {β : Type} : List (FStr × β) → FStr → Option β
  | [], _ => none
  | kv :: rest, k => if kv.1 = k then kv.2 else alookup rest k

/-- Numeric-keyed `HashMap::get` (tag-number dictionary). -/
def nlookup {β : Type} : List (Nat × β) → Nat → Option β
  | [], _ => none
  | kv :: rest, k => if kv.1 = k then kv.2 else nlookup rest k

/-- `IndexMap::insert`: replace the value in place if the key is present,
otherwise append at the end (insertion order preserved). -/
def imInsert (m : List (FStr × FStr)) (k v : FStr) : List (FStr × FStr) :=
  if m.any (fun kv => kv.1 = k) then
    m.map (fun kv => if kv.1 = k then (k, v) else kv)
  else m ++ [(k, v)]

/-- `IndexMap::entry(k).or_insert_with(v)`: keep the existing entry if the
key is present, otherwise append at the end. -/
def imEntryOr (m : List (FStr × FStr)) (k v : FStr) : List (FStr × FStr) :=
  if m.any (fun kv => kv.1 = k) then m else m ++ [(k, v)]

/-- UTF-8 bytes of one scalar value, as Rust's `str::as_bytes` produces. -/
def charUtf8Bytes (c : Char) : List Nat :=
  let n := c.toNat
  if n < 128 then [n]
  else if n < 2048 then [192 + n / 64, 128 + n % 64]
  else if n < 65536 then [224 + n / 4096, 128 + n / 64 % 64, 128 + n % 64]
  else [240 + n / 262144, 128 + n / 4096 % 64, 128 + n / 64 % 64, 128 + n % 64]

/-- UTF-8 byte sequence of a string. -/
def strBytes (s : FStr) : List Nat := s.flatMap charUtf8Bytes

/-- Bytewise sum of a string (unbounded; callers reduce mod 2^32). -/
def byteSum (s : FStr) : Nat := (strBytes s).sum

/-- Rust `str::len()`: length in UTF-8 bytes. -/
def byteLen (s : FStr) : Nat := (strBytes s).length

/-- `u32` wrapping byte-sum accumulator (the checksum loops use
`wrapping_add` on a `u32` accumulator). -/
def u32sum (bytes : List Nat) : Nat :=
  bytes.foldl (fun a b => (a + b) % 4294967296) 0

/-- `u32::saturating_add` (used for `body_length`). -/
def u32satAdd (a b : Nat) : Nat := min (a + b) 4294967295

/-- Decimal digits of `n`, most significant first (Rust `Display` for
unsigned integers / `to_string()`). -/
def natStrAux : Nat → Nat → FStr → FStr
  | 0, _, acc => acc
  | fuel + 1, n, acc =>
    let d := Char.ofNat (48 + n % 10)
    if n < 10 then d :: acc else natStrAux fuel (n / 10) (d :: acc)

def natStr (n : Nat) : FStr := natStrAux (n + 1) n []

/-- Value of a digit string (used to read back emitted numerals). -/
def digitsToNat (s : FStr) : Nat := s.foldl (fun a c => 10 * a + (c.toNat - 48)) 0

/-- Rust `format!("{:03}", v)` for a `u8` value: zero-padded to three
digits (a `u8` is below 1000, so this is exactly three digits). -/
def u8Pad3 (n : Nat) : FStr :=
  [Char.ofNat (48 + n / 100 % 10), Char.ofNat (48 + n / 10 % 10), Char.ofNat (48 + n % 10)]

/-- Rust `str::parse::<uN>()` (`FromStr` for unsigned integers): optional
leading `+`, then one or more ASCII digits, value below the type's bound. -/
def rustParseUInt (bound : Nat) (s : FStr) : Option Nat :=
  let t := match s with
    | '+' :: rest => rest
    | other => other
  if t ≠ [] ∧ t.all Char.isDigit then
    let v := digitsToNat t
    if v < bound then some v else none
  else none

def rustParseU32 (s : FStr) : Option Nat := rustParseUInt 4294967296 s

def rustParseU64 (s : FStr) : Option Nat := rustParseUInt 18446744073709551616 s

/-- Rust `str::split(sep)` (always yields at least one piece; empty pieces
around separators are kept). -/
def splitOnChar (sep : Char) : FStr → List FStr
  | [] => [[]]
  | c :: rest =>
    let s := splitOnChar sep rest
    if c = sep then [] :: s
    else (c :: s.headD []) :: s.tail

/-- Rust `str::splitn(2, '=')`: the part before the first `=` and, when a
`=` occurs, the untouched remainder. -/
def splitN2Eq (l : FStr) : List FStr :=
  let p := l.span (fun c => c ≠ '=')
  match p.2 with
  | [] => [p.1]
  | _ :: rest => [p.1, rest]

/-- `message.replace("|", "\x01")` (send-time SOH swap). -/
def toSoh (s : FStr) : FStr := s.map (fun c => if c = '|' then Char.ofNat 1 else c)

/-- `message.replace('\x01', "|")` (receive-time swap). -/
def toPipe (s : FStr) : FStr := s.map (fun c => if c = Char.ofNat 1 then '|' else c)

/-- `fix_msg.replace('#', &body_length.to_string())`: every `#` anywhere in
the accumulated message becomes the body-length digits. -/
def replaceHash (s : FStr) (digits : FStr) : FStr :=
  s.flatMap (fun c => if c = '#' then digits else [c])

/-- Field-name string constants used by the engine. -/
def kBeginString : FStr := ("BeginString".data)
def kBodyLength : FStr := ("BodyLength".data)
def kMsgType : FStr := ("MsgType".data)
def kMsgSeqNum : FStr := ("MsgSeqNum".data)
def kSendingTime : FStr := ("SendingTime".data)
def kCheckSum : FStr := ("CheckSum".data)
def kNewSeqNo : FStr := ("NewSeqNo".data)
def kBeginSeqNo : FStr := ("BeginSeqNo".data)
def kText : FStr := ("Text".data)

/-- `DataType` from `parse_xml.rs`. -/
inductive DataType : Type
  | string | int | float | char | bool
deriving DecidableEq, Repr

/-- `FixTag` from `parse_xml.rs`.  `enum_values` of the name-keyed
dictionary maps descriptions to wire codes; of the number-keyed dictionary,
wire codes to descriptions (see `parse_fix_xml`). -/
structure FixTag : Type where
  number : FStr
  name : FStr
  data_type : DataType
  enum_values : Option (List (FStr × FStr))
deriving DecidableEq, Repr

/-- The body of the field loop of `msgtype2fixmsg` (and, with
`unknownTag`, of `fixmap2fixmsg`): the emitted `tag=value` text of one
field, `none` when the field is skipped (`CheckSum`, or a name missing
from the dictionary in `msgtype2fixmsg`).  `unknownTag` is what a name
missing from the dictionary emits (`none` in `msgtype2fixmsg`,
`key=value` pass-through in `fixmap2fixmsg`). -/
def emitTagCore (unknownTag : FStr × FStr → Option FStr)
    (fix_tagname_number_map : List (FStr × FixTag)) (now : FStr)
    (msg_seq_num : Nat) (kv : FStr × FStr) : Option FStr :=
  match alookup fix_tagname_number_map kv.1 with
  | none => unknownTag kv
  | some tags_info =>
    let tag_value : FStr :=
      match tags_info.enum_values with
      | some enum_values => (alookup enum_values (kv.2.map Char.toUpper)).getD kv.2
      | none => if kv.1 = kBodyLength then ['#'] else kv.2
    if kv.1 = kSendingTime then some (tags_info.number ++ '=' :: now)
    else if kv.1 = kMsgSeqNum then some (tags_info.number ++ '=' :: natStr msg_seq_num)
    else if kv.1 = kCheckSum then none
    else some (tags_info.number ++ '=' :: tag_value)

/-- One step of the field loop: push the emitted tag (with a `|` separator
when the message is nonempty) and accumulate `body_length` for every field
other than `BeginString` and `BodyLength` (tag bytes plus one for the
separator, saturating). -/
def encStep (emit : FStr × FStr → Option FStr) (acc : FStr × Nat) (kv : FStr × FStr) :
    FStr × Nat :=
  match emit kv with
  | none => acc
  | some new_tag =>
    ((if acc.1 = [] then new_tag else acc.1 ++ '|' :: new_tag),
     if kv.1 ≠ kBeginString ∧ kv.1 ≠ kBodyLength then
       u32satAdd acc.2 (byteLen new_tag + 1)
     else acc.2)

/-- Merge of the `override_map` into the cloned template
(`predefined_msg.insert(key, value)` per entry).  The list order of the
overrides stands for the `HashMap` iteration order. -/
def mergeOverride (m : List (FStr × FStr)) : Option (List (FStr × FStr)) → List (FStr × FStr)
  | none => m
  | some l => l.foldl (fun acc kv => imInsert acc kv.1 kv.2) m

/-- Shared tail of both encoders: back-fill the `#` placeholder with the
body length, checksum the SOH form and append `|10=NNN|`.
`checksum_value` is the final three-digit value (both encoders compute
`(byte sum + 1) mod 256`, written differently in the source). -/
def finishMsg (fix_msg0 : FStr) (body_length : Nat) (checksum_value : Nat → Nat) : FStr :=
  let fix_msg := replaceHash fix_msg0 (natStr body_length)
  let checksum := u32sum (strBytes (toSoh fix_msg))
  fix_msg ++ '|' :: '1' :: '0' :: '=' :: u8Pad3 (checksum_value checksum) ++ ['|']

/-- `msgtype2fixmsg` from `message_converter.rs`.  `now` is the formatted
current UTC timestamp (`format_timestamp()`); a missing template leaves
the message empty. -/
def msgtype2fixmsg (msgtype : FStr)
    (msg_map : List (FStr × List (FStr × FStr)))
    (fix_tagname_number_map : List (FStr × FixTag))
    (override_map : Option (List (FStr × FStr)))
    (msg_seq_num : Nat) (now : FStr) : FStr :=
  let loop :=
    match alookup msg_map msgtype with
    | none => ([], 0)
    | some predefined_msg =>
      (mergeOverride predefined_msg override_map).foldl
        (encStep (emitTagCore (fun _ => none) fix_tagname_number_map now msg_seq_num)) ([], 0)
  finishMsg loop.1 loop.2 (fun checksum => (checksum + 1) % 256)

/-- `fixmap2fixmsg` from `message_converter.rs`: the field map is the
template; dictionary-unknown fields pass through as `name=value`.  Its
checksum is `(checksum % 256) as u8 + 1` (u8 wrapping add, release
semantics). -/
def fixmap2fixmsg (msg_map : List (FStr × FStr))
    (fix_tag_name_map : List (FStr × FixTag))
    (msg_seq_num : Nat) (now : FStr) : FStr :=
  let loop := msg_map.foldl
    (encStep (emitTagCore (fun kv => some (kv.1 ++ '=' :: kv.2)) fix_tag_name_map now msg_seq_num))
    ([], 0)
  finishMsg loop.1 loop.2 (fun checksum => (checksum % 256 + 1) % 256)

/-- `FixError` from `parse_xml.rs` (only the constructors, payloads elided
where they carry foreign library types). -/
inductive FixError : Type
  | xmlError | ioError | parseError (msg : FStr)
deriving DecidableEq, Repr

/-- One field of the decoder loop of `fixmsg2msgtype`: state is the
`(msgtype, msg_map)` pair accumulated so far. -/
def decStep (fix_tag_number_map : List (Nat × FixTag))
    (st : FStr × List (FStr × FStr)) (field : FStr) : FStr × List (FStr × FStr) :=
  match splitOnChar '=' field with
  | [p0, p1] =>
    match rustParseU32 p0 with
    | some tag =>
      match nlookup fix_tag_number_map tag with
      | some tag_definition =>
        match tag_definition.enum_values with
        | some enum_values =>
          let enum_description := (alookup enum_values p1).getD p1
          ((if tag_definition.name = kMsgType then enum_description else st.1),
           imEntryOr st.2 tag_definition.name enum_description)
        | none => (st.1, imEntryOr st.2 tag_definition.name p1)
      | none => (("UnknownTag".data), imInsert st.2 ("Unknown tag".data) p1)
    | none => (("InvalidTagNumber".data), imInsert st.2 ("Invalid tag number".data) p1)
  | _ => st

/-- `fixmsg2msgtype` from `message_converter.rs`: split the SOH-swapped
message on `|`, fold every `tag=value` field into the map, and always
return `Ok`. -/
def fixmsg2msgtype (fixmsg : FStr) (fix_tag_number_map : List (Nat × FixTag)) :
    Except FixError (FStr × List (FStr × FStr)) :=
  let modified_message := toPipe fixmsg
  let fields := splitOnChar '|' modified_message
  let r := fields.foldl (decStep fix_tag_number_map) ([], [])
  .ok (r.1, r.2)

/-- `FixMsgTag` from `parse_payload_xml.rs` (required-field table per
message type). -/
structure FixMsgTag : Type where
  msgname : FStr
  msgcat : FStr
  field : Option (List (FStr × FStr))
deriving DecidableEq, Repr

/-- `FixMessage` from `message_validator.rs`; the `HashMap` of fields is an
association list (only lookups are performed on it). -/
structure FixMessage : Type where
  fields : List (FStr × FStr)
deriving DecidableEq, Repr

/-- `FixMessage::parse`: split on `|`, every nonempty piece must contain a
`=` (`splitn(2, '=')`), inserted into the field map. -/
def FixMessage.parse (raw_message : FStr) : Except FStr FixMessage :=
  let step := fun (acc : Except FStr (List (FStr × FStr))) (part : FStr) =>
    match acc with
    | .error e => .error e
    | .ok fields =>
      if part ≠ [] then
        match splitN2Eq part with
        | [key, value] => .ok (imInsert fields key value)
        | _ => .error ("Invalid field format".data)
      else .ok fields
  match (splitOnChar '|' raw_message).foldl step (.ok []) with
  | .error e => .error e
  | .ok fields => .ok ⟨fields⟩

def rustParseUsize (s : FStr) : Option Nat := rustParseUInt 18446744073709551616 s

/-- `FixMessage::validate` from `message_validator.rs`. -/
def FixMessage.validate (self : FixMessage) (required_fields : List FStr)
    (valid_msg_types : List FStr) (msgnumber_fields_map : List (FStr × FixMsgTag)) : Bool :=
  (required_fields.all fun f =>
    match alookup self.fields f with
    | some value => !value.isEmpty
    | none => false) &&
  (match alookup self.fields ("9".data) with
   | some body_length => (rustParseUsize body_length).isSome && !body_length.isEmpty
   | none => true) &&
  (match alookup self.fields ("35".data) with
   | some msg_type =>
     if !(decide (msg_type ∈ valid_msg_types)) || msg_type.isEmpty then false
     else
       match alookup msgnumber_fields_map msg_type with
       | some msgtype_fld_info =>
         match msgtype_fld_info.field with
         | some field_map =>
           (field_map.map Prod.fst).all fun f =>
             match alookup self.fields f with
             | some value => !value.isEmpty
             | none => false
         | none => false
       | none => false
   | none => false)

/-- `Order` from `orderstore.rs`. -/
structure Order : Type where
  id : Nat
  account : FStr
  symbol : FStr
  side : FStr
  quantity : Nat
  price : Nat
  ordtype : FStr
  transacttime : FStr
  ordstatus : FStr
deriving DecidableEq, Repr

/-- The in-memory `HashMap<u64, Order>` of `OrderStore` (keyed insert with
replacement).  The memory-mapped `persist` writes the serialized map to a
file after the in-memory update and its failure is either swallowed by the
callers in `orderstore.rs` or cannot change the in-memory map, so the
embedding tracks the in-memory map. -/
abbrev OrderStoreMap := List (Nat × Order)

def osInsert (m : OrderStoreMap) (k : Nat) (v : Order) : OrderStoreMap :=
  if m.any (fun kv => kv.1 = k) then
    m.map (fun kv => if kv.1 = k then (k, v) else kv)
  else m ++ [(k, v)]

def osLookup : OrderStoreMap → Nat → Option Order
  | [], _ => none
  | kv :: rest, k => if kv.1 = k then kv.2 else osLookup rest k

/-- `OrderStore::add_order` (insert, then persist). -/
def OrderStore.add_order (orders : OrderStoreMap) (order : Order) : OrderStoreMap :=
  osInsert orders order.id order

/-- `OrderStore::update_order`: insert only when the id is already present,
otherwise `Err("Order ID not found")` leaving the map unchanged. -/
def OrderStore.update_order (orders : OrderStoreMap) (order : Order) :
    OrderStoreMap × Except FStr Unit :=
  if orders.any (fun kv => kv.1 = order.id) then
    (osInsert orders order.id order, .ok ())
  else (orders, .error ("Order ID not found".data))

/-- Builds the `Order` record both store helpers construct from a field
map; `none` models the `unwrap`/`parse().expect(..)` panics on missing or
non-numeric fields. -/
def orderFromMsgMap (msg_map : List (FStr × FStr)) : Option Order :=
  match alookup msg_map ("ClOrdID".data), alookup msg_map ("Symbol".data),
      alookup msg_map ("Side".data), alookup msg_map ("OrderQty".data),
      alookup msg_map ("Price".data), alookup msg_map ("OrdType".data),
      alookup msg_map ("TransactTime".data), alookup msg_map ("OrdStatus".data) with
  | some clordid, some symbol, some side, some orderqty, some price,
      some ordtype, some transacttime, some ordstatus =>
    match rustParseU64 clordid, rustParseU64 orderqty, rustParseU64 price with
    | some id, some quantity, some priceN =>
      some ⟨id, (alookup msg_map ("Account".data)).getD [], symbol, side,
        quantity, priceN, ordtype, transacttime, ordstatus⟩
    | _, _, _ => none
  | _, _, _, _, _, _, _, _ => none

/-- `add_order_to_store` from `orderstore.rs` (the inner `add_order` error
is logged and swallowed). -/
def add_order_to_store (order_store : OrderStoreMap) (msg_map : List (FStr × FStr)) :
    Option OrderStoreMap :=
  (orderFromMsgMap msg_map).map (fun order => OrderStore.add_order order_store order)

/-- `update_order_in_store` from `orderstore.rs`: the `Order` is keyed by
`ClOrdID`; the inner `update_order` error is logged and swallowed, so the
function itself always returns `Ok` when the field parses. -/
def update_order_in_store (order_store : OrderStoreMap) (msg_map : List (FStr × FStr)) :
    Option OrderStoreMap :=
  (orderFromMsgMap msg_map).map (fun order => (OrderStore.update_order order_store order).1)

/-- The session-global atomics of `main.rs` (`SENT_LOGON`,
`RECEIVED_LOGON`, `IS_INITIATOR`) together with the two counters of the
`SequenceNumberStore`, as one explicit state record. -/
structure SessionState : Type where
  incoming : Nat
  outgoing : Nat
  sent_logon : Bool
  received_logon : Bool
  is_initiator : Bool
deriving DecidableEq, Repr

/-- Observable effects of message processing: a wire write of a message
(`send_message`, SOH form), invocation of the admin or business handler,
and `process::exit`. -/
inductive Action : Type
  | send (msg : FStr)
  | dispatchAdmin (msgtype : FStr)
  | dispatchBusiness (msgtype : FStr)
  | exitProcess (code : Nat)
deriving DecidableEq, Repr

/-- `MessageMap` from `main.rs` (the parts the message path reads). -/
structure MessageMap : Type where
  fix_tag_number_map : List (Nat × FixTag)
  fix_tag_name_map : List (FStr × FixTag)
  admin_msg : List (FStr × List (FStr × FStr))
  app_msg : List (FStr × List (FStr × FStr))
  admin_msg_list : List FStr
  msgnumber_fields_map : List (FStr × FixMsgTag)
  valid_msg_types : List FStr
  required_fields : List FStr

/-- `insert_if_some_and_not_empty` from `message_handling.rs`. -/
def insert_if_some_and_not_empty (map : List (FStr × FStr)) (key : FStr)
    (value : Option FStr) : List (FStr × FStr) :=
  match value with
  | some v => if v ≠ [] then imInsert map key v else map
  | none => map

/-- `prepare_execution_report` from `message_handling.rs`; the inserts
happen in source order (list order stands for the `HashMap` iteration
order later consumed by the override merge). -/
def prepare_execution_report (orderid execid account symbol side ordtype
    transactiontime orderqty lastshares lastpx leavesqty cumqty avgpx
    exectranstype exectype ordstatus : Option FStr) : List (FStr × FStr) :=
  let m := insert_if_some_and_not_empty [] ("OrderID".data) orderid
  let m := insert_if_some_and_not_empty m ("ExecID".data) execid
  let m := insert_if_some_and_not_empty m ("Account".data) account
  let m := insert_if_some_and_not_empty m ("Symbol".data) symbol
  let m := insert_if_some_and_not_empty m ("Side".data) side
  let m := insert_if_some_and_not_empty m ("OrdType".data) ordtype
  let m := insert_if_some_and_not_empty m ("TransactionTime".data) transactiontime
  let m := insert_if_some_and_not_empty m ("OrderQty".data) orderqty
  let m := insert_if_some_and_not_empty m ("LastShares".data) lastshares
  let m := insert_if_some_and_not_empty m ("LastPx".data) lastpx
  let m := insert_if_some_and_not_empty m ("LeavesQty".data) leavesqty
  let m := insert_if_some_and_not_empty m ("CumQty".data) cumqty
  let m := insert_if_some_and_not_empty m ("AvgPx".data) avgpx
  let m := insert_if_some_and_not_empty m ("ExecTransType".data) exectranstype
  let m := insert_if_some_and_not_empty m ("ExecType".data) exectype
  insert_if_some_and_not_empty m ("OrdStatus".data) ordstatus

/-- `handle_new_order_single` from `message_handling.rs`: returns the
response text and the updated order store; `none` models the panics of the
store helpers on unparsable ids. -/
def handle_new_order_single (msg_map : List (FStr × FStr))
    (app_msg : List (FStr × List (FStr × FStr)))
    (fix_tag_name_map : List (FStr × FixTag)) (s : SessionState)
    (order_store : OrderStoreMap) (now : FStr) : Option (FStr × OrderStoreMap) :=
  match alookup msg_map ("ClOrdID".data), alookup msg_map ("Symbol".data),
      alookup msg_map ("Side".data), alookup msg_map ("OrderQty".data),
      alookup msg_map ("Price".data), alookup msg_map ("OrdType".data),
      alookup msg_map ("TransactTime".data) with
  | some clordid, some symbol, some side, some orderqty, some price,
      some ordtype, some transacttime =>
    let msg_map_clone := imInsert msg_map ("OrdStatus".data) ("New".data)
    match add_order_to_store order_store msg_map_clone with
    | none => none
    | some order_store =>
      if s.is_initiator then some ([], order_store)
      else
        let override_map := prepare_execution_report
          (some clordid) (some ("XYZ123".data))
          (some ((alookup msg_map ("Account".data)).getD []))
          (some symbol) (some side) (some ordtype) (some transacttime)
          (some orderqty) (some ("0".data)) (some price) (some ("0".data))
          (some ("0".data)) (some ("0".data)) (some ("0".data))
          (some ("0".data)) (some ("0".data))
        some (msgtype2fixmsg ("Execution_Report".data) app_msg fix_tag_name_map
          (some override_map) s.outgoing now, order_store)
  | _, _, _, _, _, _, _ =>
    if s.is_initiator then some ([], order_store)
    else
      let override_map := prepare_execution_report
        (some ((alookup msg_map ("ClOrdID".data)).getD [])) (some ("XYZ123".data))
        (some ((alookup msg_map ("Account".data)).getD []))
        (some ((alookup msg_map ("Symbol".data)).getD []))
        (some ((alookup msg_map ("Side".data)).getD []))
        (some ((alookup msg_map ("OrdType".data)).getD []))
        (some ((alookup msg_map ("TransactTime".data)).getD []))
        (some ("0".data)) (some ("0".data))
        (some ((alookup msg_map ("Price".data)).getD []))
        (some ("0".data)) (some ("0".data)) (some ("0".data))
        (some ("0".data)) (some ("8".data)) (some ("8".data))
      some (msgtype2fixmsg ("Execution_Report".data) app_msg fix_tag_name_map
        (some override_map) s.outgoing now, order_store)

/-- `handle_order_cancel_replace_request` from `message_handling.rs`: with
all required fields present the store entry keyed by `ClOrdID` is updated
to `Replaced` (the failed update on an unknown id is swallowed), else an
`Order_Cancel_Reject` is produced. -/
def handle_order_cancel_replace_request (msg_map : List (FStr × FStr))
    (app_msg : List (FStr × List (FStr × FStr)))
    (fix_tag_name_map : List (FStr × FixTag)) (s : SessionState)
    (order_store : OrderStoreMap) (now : FStr) : Option (FStr × OrderStoreMap) :=
  match alookup msg_map ("OrigClOrdID".data), alookup msg_map ("ClOrdID".data),
      alookup msg_map ("Symbol".data), alookup msg_map ("Side".data),
      alookup msg_map ("OrderQty".data), alookup msg_map ("Price".data),
      alookup msg_map ("OrdType".data), alookup msg_map ("TransactTime".data) with
  | some _origclordid, some clordid, some symbol, some side, some orderqty,
      some price, some ordtype, some transacttime =>
    let msg_map_clone := imInsert msg_map ("OrdStatus".data) ("Replaced".data)
    match update_order_in_store order_store msg_map_clone with
    | none => none
    | some order_store =>
      if s.is_initiator then some ([], order_store)
      else
        let override_map := prepare_execution_report
          (some clordid) (some ("XYZ123".data))
          (some ((alookup msg_map ("Account".data)).getD []))
          (some symbol) (some side) (some ordtype) (some transacttime)
          (some orderqty) (some ("0".data)) (some price) (some ("0".data))
          (some ("0".data)) (some ("0".data)) (some ("2".data))
          (some ("5".data)) (some ("5".data))
        some (msgtype2fixmsg ("Execution_Report".data) app_msg fix_tag_name_map
          (some override_map) s.outgoing now, order_store)
  | _, _, _, _, _, _, _, _ =>
    if s.is_initiator then some ([], order_store)
    else
      some (msgtype2fixmsg ("Order_Cancel_Reject".data) app_msg fix_tag_name_map
        none s.outgoing now, order_store)

/-- `handle_order_cancel_request` from `message_handling.rs`: with all
required fields present the store entry keyed by `ClOrdID` is updated to
`Canceled` (the failed update on an unknown id is swallowed), else an
`Order_Cancel_Reject` is produced. -/
def handle_order_cancel_request (msg_map : List (FStr × FStr))
    (app_msg : List (FStr × List (FStr × FStr)))
    (fix_tag_name_map : List (FStr × FixTag)) (s : SessionState)
    (order_store : OrderStoreMap) (now : FStr) : Option (FStr × OrderStoreMap) :=
  match alookup msg_map ("OrigClOrdID".data), alookup msg_map ("ClOrdID".data),
      alookup msg_map ("Symbol".data), alookup msg_map ("Side".data),
      alookup msg_map ("OrderQty".data), alookup msg_map ("Price".data),
      alookup msg_map ("OrdType".data), alookup msg_map ("TransactTime".data) with
  | some _origclordid, some clordid, some symbol, some side, some _orderqty,
      some _price, some _ordtype, some transacttime =>
    let msg_map_clone := imInsert msg_map ("OrdStatus".data) ("Canceled".data)
    match update_order_in_store order_store msg_map_clone with
    | none => none
    | some order_store =>
      if s.is_initiator then some ([], order_store)
      else
        let override_map := prepare_execution_report
          (some clordid) (some ("XYZ123".data)) none
          (some symbol) (some side) none (some transacttime)
          none none none none none none (some ("1".data))
          (some ("4".data)) (some ("4".data))
        some (msgtype2fixmsg ("Execution_Report".data) app_msg fix_tag_name_map
          (some override_map) s.outgoing now, order_store)
  | _, _, _, _, _, _, _, _ =>
    if s.is_initiator then some ([], order_store)
    else
      some (msgtype2fixmsg ("Order_Cancel_Reject".data) app_msg fix_tag_name_map
        none s.outgoing now, order_store)

def is_fix_message (message : FStr) : Bool := decide (List.IsInfix ("8=FIX".data) message)

def is_admin_message (msgtype : FStr) (admin_msg_list : List FStr) : Bool :=
  decide (msgtype ∈ admin_msg_list)

/-- `handle_admin_message` from `message_handling.rs` (`LAST_SENT_TIME` is
wall-clock only and untracked); `none` models the `expect` panics of the
`SEQUENCE_RESET` branch when `NewSeqNo` is missing or unparsable. -/
def handle_admin_message (msgtype : FStr) (msg_map : List (FStr × FStr))
    (admin_msg : List (FStr × List (FStr × FStr)))
    (fix_tag_name_map : List (FStr × FixTag)) (now : FStr) (s : SessionState) :
    Option (SessionState × List Action) :=
  if s.sent_logon ∧ msgtype = ("LOGON".data) then
    some ({ s with received_logon := if s.is_initiator then true else s.received_logon }, [])
  else
    let branch : Option (FStr × SessionState) :=
      if msgtype = ("LOGON".data) then
        some (msgtype2fixmsg ("Logon".data) admin_msg fix_tag_name_map none s.outgoing now,
          { s with received_logon := true, sent_logon := true })
      else if msgtype = ("HEARTBEAT".data) ∨ msgtype = ("TEST_REQUEST".data) then
        some (msgtype2fixmsg ("Heartbeat".data) admin_msg fix_tag_name_map none s.outgoing now, s)
      else if msgtype = ("RESEND_REQUEST".data) then
        some (msgtype2fixmsg ("Sequence_Reset".data) admin_msg fix_tag_name_map
          (some [(kNewSeqNo, natStr s.incoming)]) s.outgoing now, s)
      else if msgtype = ("SEQUENCE_RESET".data) then
        match alookup msg_map kNewSeqNo with
        | none => none
        | some v =>
          match rustParseU64 v with
          | none => none
          | some new_seqno => some ([], { s with outgoing := new_seqno })
      else some ([], s)
    match branch with
    | none => none
    | some (response, s₁) =>
      if response ≠ [] then
        some ({ s₁ with outgoing := s₁.outgoing + 1 }, [Action.send (toSoh response)])
      else some (s₁, [])

/-- `handle_business_message` from `message_handling.rs`. -/
def handle_business_message (msgtype : FStr) (msg_map : List (FStr × FStr))
    (app_msg : List (FStr × List (FStr × FStr)))
    (fix_tag_name_map : List (FStr × FixTag)) (s : SessionState)
    (order_store : OrderStoreMap) (now : FStr) :
    Option (SessionState × OrderStoreMap × List Action) :=
  let branch : Option (FStr × OrderStoreMap) :=
    if msgtype = ("NEW_ORDER_SINGLE".data) then
      handle_new_order_single msg_map app_msg fix_tag_name_map s order_store now
    else if msgtype = ("ORDER_CANCEL_REPLACE_REQUEST".data) then
      handle_order_cancel_replace_request msg_map app_msg fix_tag_name_map s order_store now
    else if msgtype = ("ORDER_CANCEL_REQUEST".data) then
      handle_order_cancel_request msg_map app_msg fix_tag_name_map s order_store now
    else if msgtype = ("EXECUTION_REPORT".data) then
      some ([], order_store)
    else
      some (msgtype2fixmsg ("Business_Message_Reject".data) app_msg fix_tag_name_map
        none s.outgoing now, order_store)
  match branch with
  | none => none
  | some (response, order_store) =>
    if response ≠ [] then
      some ({ s with outgoing := s.outgoing + 1 }, order_store, [Action.send (toSoh response)])
    else some (s, order_store, [])

/-- `handle_resend_request` from `message_handling.rs`: a `Resend_Request`
with `BeginSeqNo` overridden to the expected incoming number is sent and
the outgoing counter incremented. -/
def handle_resend_request (expected_incoming_seq_num : Nat) (coll : MessageMap)
    (s : SessionState) (now : FStr) : SessionState × List Action :=
  let override_map := [(kBeginSeqNo, natStr expected_incoming_seq_num)]
  let fix_msg := msgtype2fixmsg ("Resend_Request".data) coll.admin_msg
    coll.fix_tag_name_map (some override_map) s.outgoing now
  ({ s with outgoing := s.outgoing + 1 }, [Action.send (toSoh fix_msg)])

/-- `handle_logout` from `message_handling.rs`: a `Logout` with `Text`
overridden to `err_text` is sent and the outgoing counter incremented. -/
def handle_logout (err_text : FStr) (coll : MessageMap) (s : SessionState)
    (now : FStr) : SessionState × List Action :=
  let override_map := [(kText, err_text)]
  let fix_msg := msgtype2fixmsg ("Logout".data) coll.admin_msg
    coll.fix_tag_name_map (some override_map) s.outgoing now
  ({ s with outgoing := s.outgoing + 1 }, [Action.send (toSoh fix_msg)])

/-- The `Text` of the sequence-too-low logout:
`format!("MsgSeqNum too low, expecting {} but received {}!!", ..)`. -/
def seqTooLowText (expected observed : Nat) : FStr :=
  ("MsgSeqNum too low, expecting ".data) ++ natStr expected ++
    (" but received ".data) ++ natStr observed ++ ("!!".data)

/-- `process_fix_message` from `message_handling.rs` (without the purely
textual `print_fix_message` logging): validation gate, sequence
discipline, and dispatch.  `none` models handler panics. -/
def process_fix_message (message : FStr) (coll : MessageMap) (s : SessionState)
    (order_store : OrderStoreMap) (now : FStr) :
    Option (SessionState × OrderStoreMap × List Action) :=
  let modified_message := toPipe message
  match FixMessage.parse modified_message with
  | .error _ => some (s, order_store, [])
  | .ok fix_message =>
    if fix_message.validate coll.required_fields coll.valid_msg_types
        coll.msgnumber_fields_map then
      match fixmsg2msgtype message coll.fix_tag_number_map with
      | .error _ => some (s, order_store, [])
      | .ok (msgtype, msg_map) =>
        match (alookup msg_map kMsgSeqNum).bind rustParseU64 with
        | none => some (s, order_store, [])
        | some incoming_seq_num =>
          let expected_incoming_seq_num := s.incoming
          if expected_incoming_seq_num = incoming_seq_num then
            let s₁ := { s with incoming := s.incoming + 1 }
            if is_admin_message msgtype coll.admin_msg_list then
              match handle_admin_message msgtype msg_map coll.admin_msg
                  coll.fix_tag_name_map now s₁ with
              | none => none
              | some (s₂, acts) =>
                some (s₂, order_store, Action.dispatchAdmin msgtype :: acts)
            else
              match handle_business_message msgtype msg_map coll.app_msg
                  coll.fix_tag_name_map s₁ order_store now with
              | none => none
              | some (s₂, order_store₂, acts) =>
                some (s₂, order_store₂, Action.dispatchBusiness msgtype :: acts)
          else if expected_incoming_seq_num < incoming_seq_num then
            if msgtype = ("SEQUENCE_RESET".data) then
              match handle_admin_message msgtype msg_map coll.admin_msg
                  coll.fix_tag_name_map now s with
              | none => none
              | some (s₂, acts) =>
                some (s₂, order_store, Action.dispatchAdmin msgtype :: acts)
            else
              let r := handle_resend_request expected_incoming_seq_num coll s now
              some (r.1, order_store, r.2)
          else
            let err_text := seqTooLowText expected_incoming_seq_num incoming_seq_num
            let r := handle_logout err_text coll s now
            some (r.1, order_store, r.2 ++ [Action.exitProcess 1])
    else some (s, order_store, [])

/-- `SequenceNumber` from `sequence.rs`. -/
structure SequenceNumber : Type where
  incoming : Nat
  outgoing : Nat
deriving DecidableEq, Repr

/-- `SequenceNumberStore::new` from `sequence.rs`.  File I/O and
`serde_json` are external: `readResult` is the outcome of
`File::open` + `read_to_string` (`none` = open failed, `some none` = read
failed, `some (some c)` = content `c`), and `parse` is the `serde_json`
deserializer for the `{incoming, outgoing}` record (`none` = parse
error).  Every failure falls back to `{1, 1}`. -/
def SequenceNumberStore.new (readResult : Option (Option FStr))
    (parse : FStr → Option SequenceNumber) : SequenceNumber :=
  match readResult with
  | some (some content) => (parse content).getD ⟨1, 1⟩
  | some none => ⟨1, 1⟩
  | none => ⟨1, 1⟩

/-- `SequenceNumberStore::get_incoming`. -/
def SequenceNumberStore.get_incoming (s : SequenceNumber) : Nat := s.incoming

/-- `SequenceNumberStore::get_outgoing`. -/
def SequenceNumberStore.get_outgoing (s : SequenceNumber) : Nat := s.outgoing

/-! ### Proof-side auxiliary definitions -/

/-- The tags the field loop emits, in order (specification of the loop's
string accumulator). -/
def emittedTags (emit : FStr × FStr → Option FStr) (pm : List (FStr × FStr)) : List FStr :=
  pm.filterMap emit

/-- Concatenation with a leading `|` before every piece. -/
def pipeCat (ts : List FStr) : FStr := ts.flatMap (fun t => '|' :: t)

/-- `|`-separated join (no leading separator). -/
def joinPipe : List FStr → FStr
  | [] => []
  | t :: ts => t ++ pipeCat ts

/-- The byte counts the loop adds to `body_length`, in order. -/
def countedLens (emit : FStr × FStr → Option FStr) (pm : List (FStr × FStr)) : List Nat :=
  pm.filterMap (fun kv =>
    match emit kv with
    | none => none
    | some t =>
      if kv.1 ≠ kBeginString ∧ kv.1 ≠ kBodyLength then some (byteLen t + 1) else none)

/-- The emit function of `msgtype2fixmsg` (names missing from the
dictionary are skipped). -/
def emitT (nm : List (FStr × FixTag)) (now : FStr) (seq : Nat) : FStr × FStr → Option FStr :=
  emitTagCore (fun _ => none) nm now seq

/-- The emit function of `fixmap2fixmsg` (names missing from the
dictionary pass through as `name=value`). -/
def emitF (nm : List (FStr × FixTag)) (now : FStr) (seq : Nat) : FStr × FStr → Option FStr :=
  emitTagCore (fun kv => some (kv.1 ++ '=' :: kv.2)) nm now seq

/-! ### Data for the concrete instances used by counterexamples and
witnesses.

`seedNameDict` / `seedNumDict` / `logonTmpl` are modelled from the spec:
the FIX 4.2 field dictionary (`FIX42.xml`) and the seed-template JSON are
data files of the repository that are not under `src/`; the fragment below
follows spec sections 4.1, 4.2 and the S1 logon example of section 8
(name-keyed enum tables map descriptions to wire codes, number-keyed
tables map codes to descriptions, as `parse_fix_xml` builds them). -/

def mkTag (num name : FStr) (ev : Option (List (FStr × FStr))) : FixTag :=
  ⟨num, name, DataType.string, ev⟩

def kLOGON : FStr := ("LOGON".data)
def kLogon : FStr := ("Logon".data)
def kSenderCompID : FStr := ("SenderCompID".data)
def kTargetCompID : FStr := ("TargetCompID".data)
def kEncryptMethod : FStr := ("EncryptMethod".data)
def kHeartBtInt : FStr := ("HeartBtInt".data)

/-- Modelled from the spec: name-keyed dictionary fragment (enums keyed
description → code). -/
def seedNameDict : List (FStr × FixTag) :=
  [(kBeginString, mkTag ("8".data) kBeginString none),
   (kBodyLength, mkTag ("9".data) kBodyLength none),
   (kMsgType, mkTag ("35".data) kMsgType (some [(kLOGON, ("A".data))])),
   (kMsgSeqNum, mkTag ("34".data) kMsgSeqNum none),
   (kSenderCompID, mkTag ("49".data) kSenderCompID none),
   (kTargetCompID, mkTag ("56".data) kTargetCompID none),
   (kEncryptMethod, mkTag ("98".data) kEncryptMethod none),
   (kHeartBtInt, mkTag ("108".data) kHeartBtInt none),
   (kCheckSum, mkTag ("10".data) kCheckSum none)]

/-- Modelled from the spec: number-keyed dictionary fragment (enums keyed
code → description). -/
def seedNumDict : List (Nat × FixTag) :=
  [(8, mkTag ("8".data) kBeginString none),
   (9, mkTag ("9".data) kBodyLength none),
   (35, mkTag ("35".data) kMsgType (some [(("A".data), kLOGON)])),
   (34, mkTag ("34".data) kMsgSeqNum none),
   (49, mkTag ("49".data) kSenderCompID none),
   (56, mkTag ("56".data) kTargetCompID none),
   (98, mkTag ("98".data) kEncryptMethod none),
   (108, mkTag ("108".data) kHeartBtInt none),
   (10, mkTag ("10".data) kCheckSum none)]

/-- Modelled from the spec: the seed `Logon` template (header merged with
the admin entry, section 4.1; values from the S1 example of section 8). -/
def logonTmpl : List (FStr × FStr) :=
  [(kBeginString, ("FIX.4.2".data)),
   (kBodyLength, []),
   (kMsgType, kLogon),
   (kMsgSeqNum, ("1".data)),
   (kSenderCompID, ("ENGINE".data)),
   (kTargetCompID, ("VENUE".data)),
   (kEncryptMethod, ("0".data)),
   (kHeartBtInt, ("30".data)),
   (kCheckSum, [])]

/-- Modelled from the spec: the seed application/admin template set (the
`Logon` entry). -/
def seedAppMsg : List (FStr × List (FStr × FStr)) := [(kLogon, logonTmpl)]

/-- Override maps the C6 round-trip statement ranges over: keys drawn
from the template's plain (non-special, enum-free) fields, values
alphanumeric (no `=`, `|`, `#`, SOH). -/
def admissibleOv (ov : List (FStr × FStr)) : Prop :=
  ∀ kv ∈ ov, (kv.1 = kSenderCompID ∨ kv.1 = kTargetCompID ∨ kv.1 = kEncryptMethod ∨
    kv.1 = kHeartBtInt) ∧ ∀ c ∈ kv.2, c.isAlphanum = true

/-- `YYYYMMDD-HH:MM:SS.mmm` shape check, for the timestamp conjunct of
the round-trip claim. -/
def validUtcTimestamp (s : FStr) : Prop :=
  s.length = 21 ∧
    (∀ i ∈ [0, 1, 2, 3, 4, 5, 6, 7, 9, 10, 12, 13, 15, 16, 18, 19, 20],
      (s.getD i ' ').isDigit = true) ∧
    s.getD 8 ' ' = '-' ∧ s.getD 11 ' ' = ':' ∧ s.getD 14 ' ' = ':' ∧ s.getD 17 ' ' = '.'

/-- Claim C6 as stated, at one encode/decode instance: decoding the
encoded message yields the template's message name and the merged field
map, except that `SendingTime` may differ (but must look like a UTC
timestamp) and `MsgSeqNum` is the passed sequence number. -/
def roundTripClaim (name : FStr) (tmpl : List (FStr × FStr))
    (msgMap : List (FStr × List (FStr × FStr))) (nameDict : List (FStr × FixTag))
    (numDict : List (Nat × FixTag)) (ov : Option (List (FStr × FStr)))
    (n : Nat) (now : FStr) : Prop :=
  ∃ dname dm,
    fixmsg2msgtype (msgtype2fixmsg name msgMap nameDict ov n now) numDict = .ok (dname, dm) ∧
    dname = name ∧
    alookup dm kMsgSeqNum = some (natStr n) ∧
    (∀ k, k ≠ kSendingTime → k ≠ kMsgSeqNum → alookup dm k = alookup (mergeOverride tmpl ov) k) ∧
    (∀ v, alookup dm kSendingTime = some v → validUtcTimestamp v)

/-! ### Concrete instances for counterexamples and witnesses -/

def now0 : FStr := ("20240101-00:00:00.000".data)

/-- A name-keyed dictionary fragment for the session-path instances
(`MsgType` enums keyed description → code, per FIX 4.2). -/
def sessNameDict : List (FStr × FixTag) :=
  [(kBeginString, mkTag ("8".data) kBeginString none),
   (kBodyLength, mkTag ("9".data) kBodyLength none),
   (kMsgType, mkTag ("35".data) kMsgType (some
     [(("NEW_ORDER_SINGLE".data), ("D".data)),
      (("SEQUENCE_RESET".data), ("4".data)),
      (("RESEND_REQUEST".data), ("2".data)),
      (("LOGOUT".data), ("5".data))])),
   (kMsgSeqNum, mkTag ("34".data) kMsgSeqNum none),
   (kNewSeqNo, mkTag ("36".data) kNewSeqNo none),
   (kBeginSeqNo, mkTag ("7".data) kBeginSeqNo none),
   (("EndSeqNo".data), mkTag ("16".data) ("EndSeqNo".data) none),
   (kText, mkTag ("58".data) kText none),
   (kCheckSum, mkTag ("10".data) kCheckSum none)]

/-- A number-keyed dictionary fragment for the session-path instances
(`MsgType` enums keyed code → description). -/
def sessNumDict : List (Nat × FixTag) :=
  [(8, mkTag ("8".data) kBeginString none),
   (9, mkTag ("9".data) kBodyLength none),
   (35, mkTag ("35".data) kMsgType (some
     [(("D".data), ("NEW_ORDER_SINGLE".data)),
      (("4".data), ("SEQUENCE_RESET".data))])),
   (34, mkTag ("34".data) kMsgSeqNum none),
   (36, mkTag ("36".data) kNewSeqNo none),
   (10, mkTag ("10".data) kCheckSum none)]

/-- Admin template set for the session-path instances. -/
def sessAdminMsg : List (FStr × List (FStr × FStr)) :=
  [(("Resend_Request".data),
    [(kBeginString, ("FIX.4.2".data)), (kBodyLength, []),
     (kMsgType, ("Resend_Request".data)), (kMsgSeqNum, ("1".data)),
     (kBeginSeqNo, ("1".data)), (("EndSeqNo".data), ("0".data))]),
   (("Logout".data),
    [(kBeginString, ("FIX.4.2".data)), (kBodyLength, []),
     (kMsgType, ("Logout".data)), (kMsgSeqNum, ("1".data)),
     (kText, [])])]

/-- The `MessageMap` of the session-path instances. -/
def collW : MessageMap :=
  { fix_tag_number_map := sessNumDict
    fix_tag_name_map := sessNameDict
    admin_msg := sessAdminMsg
    app_msg := []
    admin_msg_list := [("LOGON".data), ("LOGOUT".data), ("HEARTBEAT".data),
      ("TEST_REQUEST".data), ("RESEND_REQUEST".data), ("SEQUENCE_RESET".data)]
    msgnumber_fields_map :=
      [(("D".data), ⟨("NewOrderSingle".data), ("app".data), some []⟩),
       (("4".data), ⟨("SequenceReset".data), ("admin".data), some []⟩)]
    valid_msg_types := [("D".data), ("4".data)]
    required_fields := [] }

def sessState0 : SessionState := ⟨5, 7, false, false, false⟩

/-- Wire messages (pipe form) fed to `process_fix_message` in the
session-path instances. -/
def msgGap : FStr := ("8=FIX.4.2|35=D|34=8|10=000|".data)
def msgLow : FStr := ("8=FIX.4.2|35=D|34=3|10=000|".data)
def msgSeqResetLow : FStr := ("8=FIX.4.2|35=4|36=10|34=3|10=000|".data)
def msgSeqResetGap : FStr := ("8=FIX.4.2|35=4|36=10|34=8|10=000|".data)

/-- Concrete order store and cancel request for the C2 instance. -/
def order42 : Order :=
  ⟨42, [], ("XYZ".data), ("1".data), 10, 25, ("2".data), ("T0".data), ("New".data)⟩

def store42 : OrderStoreMap := [(42, order42)]

def cancelMsg42 : List (FStr × FStr) :=
  [(("OrigClOrdID".data), ("42".data)), (("ClOrdID".data), ("43".data)),
   (("Symbol".data), ("XYZ".data)), (("Side".data), ("1".data)),
   (("OrderQty".data), ("10".data)), (("Price".data), ("25".data)),
   (("OrdType".data), ("2".data)), (("TransactTime".data), ("T0".data))]

/-- Dictionary and template for the C10 instance: the `Text` value
contains a `#`. -/
def hashNameDict : List (FStr × FixTag) :=
  [(kBeginString, mkTag ("8".data) kBeginString none),
   (kBodyLength, mkTag ("9".data) kBodyLength none),
   (kMsgType, mkTag ("35".data) kMsgType none),
   (kText, mkTag ("58".data) kText none)]

def hashTmpl : List (FStr × FStr) :=
  [(kBeginString, ("FIX.4.2".data)),
   (kBodyLength, []),
   (kMsgType, ("X".data)),
   (kText, ("a#b".data))]

def hashMsgMap : List (FStr × List (FStr × FStr)) := [(("HashDemo".data), hashTmpl)]

/-- Last value an override list assigns to key `k`, default `dflt` (the
value the merge of `msgtype2fixmsg` leaves at an existing template key). -/
def ovVal (ov : List (FStr × FStr)) (k dflt : FStr) : FStr :=
  ov.foldl (fun acc kv => if kv.1 = k then kv.2 else acc) dflt

/-- Claim C1's property of one emitted message: the three digits after the
final `10=` equal the byte sum of everything before the `CheckSum` field
(SOH separators included) modulo 256.  `ccc` holds only digits and is
followed by the terminating separator, so the `10=` shown is the final
one. -/
def checksumProp (out : FStr) : Prop :=
  ∃ pre ccc, out = pre ++ ('1' :: '0' :: '=' :: []) ++ ccc ++ ['|'] ∧
    ccc.length = 3 ∧ (∀ c ∈ ccc, c.isDigit = true) ∧
    digitsToNat ccc = byteSum (toSoh pre) % 256

/-! ### Helper lemmas -/

theorem strBytes_append (a b : FStr) : strBytes (a ++ b) = strBytes a ++ strBytes b := by
  simp [strBytes]

theorem strBytes_cons (c : Char) (s : FStr) :
    strBytes (c :: s) = charUtf8Bytes c ++ strBytes s := by
  simp [strBytes]

theorem byteSum_append (a b : FStr) : byteSum (a ++ b) = byteSum a + byteSum b := by
  simp [byteSum, strBytes_append]

theorem byteLen_append (a b : FStr) : byteLen (a ++ b) = byteLen a + byteLen b := by
  simp [byteLen, strBytes_append]

theorem u32sum_aux (l : List Nat) : ∀ a : Nat,
    l.foldl (fun x y => (x + y) % 4294967296) (a % 4294967296) = (a + l.sum) % 4294967296 := by
  induction l with
  | nil => intro a; simp
  | cons b l ih =>
    intro a
    have h1 : (a % 4294967296 + b) % 4294967296 = (a + b) % 4294967296 := by omega
    simp only [List.foldl_cons, List.sum_cons, h1, ih (a + b)]
    ring_nf

theorem u32sum_eq (l : List Nat) : u32sum l = l.sum % 4294967296 := by
  have := u32sum_aux l 0
  simpa [u32sum] using this

theorem toSoh_append (a b : FStr) : toSoh (a ++ b) = toSoh a ++ toSoh b := by
  simp [toSoh]

theorem byteLen_cons (c : Char) (s : FStr) :
    byteLen (c :: s) = (charUtf8Bytes c).length + byteLen s := by
  simp [byteLen, strBytes_cons]

theorem byteLen_toSoh (s : FStr) : byteLen (toSoh s) = byteLen s := by
  induction s with
  | nil => rfl
  | cons c s ih =>
    have hst : toSoh (c :: s) = (if c = '|' then Char.ofNat 1 else c) :: toSoh s := rfl
    rw [hst, byteLen_cons, byteLen_cons, ih]
    by_cases h : c = '|'
    · rw [if_pos h, h]
      have h1 : (charUtf8Bytes (Char.ofNat 1)).length = 1 := by decide
      have h2 : (charUtf8Bytes '|').length = 1 := by decide
      rw [h1, h2]
    · rw [if_neg h]

theorem toSoh_of_no_pipe (s : FStr) (h : '|' ∉ s) : toSoh s = s := by
  induction s with
  | nil => rfl
  | cons c s ih =>
    have hc : c ≠ '|' := fun he => h (he ▸ List.mem_cons_self c s)
    have hs : '|' ∉ s := fun hm => h (List.mem_cons_of_mem c hm)
    show (if c = '|' then Char.ofNat 1 else c) :: toSoh s = c :: s
    rw [if_neg hc, ih hs]

theorem replaceHash_append (a b d : FStr) :
    replaceHash (a ++ b) d = replaceHash a d ++ replaceHash b d := by
  simp [replaceHash]

theorem replaceHash_cons (c : Char) (s d : FStr) :
    replaceHash (c :: s) d = (if c = '#' then d else [c]) ++ replaceHash s d := by
  simp [replaceHash]

theorem replaceHash_of_no_hash (s d : FStr) (h : '#' ∉ s) : replaceHash s d = s := by
  induction s with
  | nil => rfl
  | cons c s ih =>
    have hc : c ≠ '#' := fun he => h (he ▸ List.mem_cons_self c s)
    have hs : '#' ∉ s := fun hm => h (List.mem_cons_of_mem c hm)
    rw [replaceHash_cons, if_neg hc, ih hs]
    rfl

theorem digitCharOfNat_isDigit : ∀ m < 10, ((Char.ofNat (48 + m)).isDigit = true ∧
    (Char.ofNat (48 + m)).toNat = 48 + m) := by decide

theorem natStrAux_digits (P : Char → Prop) (hP : ∀ m < 10, P (Char.ofNat (48 + m))) :
    ∀ fuel n acc, (∀ c ∈ acc, P c) → ∀ c ∈ natStrAux fuel n acc, P c := by
  intro fuel
  induction fuel with
  | zero => intro n acc hacc; exact hacc
  | succ fuel ih =>
    intro n acc hacc c hc
    have hd : P (Char.ofNat (48 + n % 10)) := hP (n % 10) (Nat.mod_lt n (by omega))
    have hacc2 : ∀ x ∈ (Char.ofNat (48 + n % 10) :: acc), P x := by
      intro x hx
      rcases List.mem_cons.mp hx with h | h
      · exact h ▸ hd
      · exact hacc x h
    unfold natStrAux at hc
    by_cases hn : n < 10
    · rw [if_pos hn] at hc
      exact hacc2 c hc
    · rw [if_neg hn] at hc
      exact ih (n / 10) _ hacc2 c hc

theorem natStr_isDigit (n : Nat) : ∀ c ∈ natStr n, c.isDigit = true := by
  refine natStrAux_digits (fun c => c.isDigit = true) ?_ (n + 1) n [] (by simp)
  intro m hm
  exact (digitCharOfNat_isDigit m hm).1

theorem isDigit_ne {c d : Char} (h : c.isDigit = true) (hd : d.isDigit = false) : c ≠ d := by
  intro he
  rw [he, hd] at h
  exact Bool.false_ne_true h

theorem natStr_no_pipe (n : Nat) : '|' ∉ natStr n := by
  intro h
  exact isDigit_ne (natStr_isDigit n '|' h) (by decide) rfl

theorem natStr_no_hash (n : Nat) : '#' ∉ natStr n := by
  intro h
  exact isDigit_ne (natStr_isDigit n '#' h) (by decide) rfl

theorem u8Pad3_isDigit (n : Nat) : ∀ c ∈ u8Pad3 n, c.isDigit = true := by
  intro c hc
  have h1 := (digitCharOfNat_isDigit (n / 100 % 10) (Nat.mod_lt _ (by omega))).1
  have h2 := (digitCharOfNat_isDigit (n / 10 % 10) (Nat.mod_lt _ (by omega))).1
  have h3 := (digitCharOfNat_isDigit (n % 10) (Nat.mod_lt _ (by omega))).1
  rcases hc with _ | ⟨_, _ | ⟨_, _ | ⟨_, h⟩⟩⟩ <;> first | assumption | cases h

theorem digitsToNat_u8Pad3 (n : Nat) (h : n < 256) : digitsToNat (u8Pad3 n) = n := by
  have h1 := (digitCharOfNat_isDigit (n / 100 % 10) (Nat.mod_lt _ (by omega))).2
  have h2 := (digitCharOfNat_isDigit (n / 10 % 10) (Nat.mod_lt _ (by omega))).2
  have h3 := (digitCharOfNat_isDigit (n % 10) (Nat.mod_lt _ (by omega))).2
  show 10 * (10 * (10 * 0 + _) + _) + _ = n
  rw [h1, h2, h3]
  omega

theorem emitTagCore_ne_nil {u : FStr × FStr → Option FStr}
    (hu : ∀ kv t, u kv = some t → t ≠ []) (nm : List (FStr × FixTag)) (now : FStr)
    (seq : Nat) (kv : FStr × FStr) (t : FStr)
    (h : emitTagCore u nm now seq kv = some t) : t ≠ [] := by
  unfold emitTagCore at h
  rcases he : alookup nm kv.1 with _ | ti
  · rw [he] at h
    exact hu kv t h
  · rw [he] at h
    simp only at h
    split at h
    · cases h
      simp
    · split at h
      · cases h
        simp
      · split at h
        · cases h
        · cases h
          simp

theorem pipeCat_cons (t : FStr) (ts : List FStr) :
    pipeCat (t :: ts) = '|' :: (t ++ pipeCat ts) := by
  simp [pipeCat]

theorem pipeCat_eq_joinPipe (ts : List FStr) (h : ts ≠ []) :
    pipeCat ts = '|' :: joinPipe ts := by
  cases ts with
  | nil => exact absurd rfl h
  | cons t ts => rw [pipeCat_cons]; rfl

theorem encStep_foldl_fst {emit : FStr × FStr → Option FStr} :
    ∀ (pm : List (FStr × FStr)) (acc : FStr) (b : Nat), acc ≠ [] →
      ((pm.foldl (encStep emit) (acc, b)).1 = acc ++ pipeCat (emittedTags emit pm)) := by
  intro pm
  induction pm with
  | nil => intro acc b _; simp [emittedTags, pipeCat]
  | cons kv pm ih =>
    intro acc b hacc
    rcases he : emit kv with _ | t
    · have hstep : encStep emit (acc, b) kv = (acc, b) := by
        unfold encStep; rw [he]
      rw [List.foldl_cons, hstep, ih acc b hacc]
      simp [emittedTags, he]
    · have hstep : encStep emit (acc, b) kv =
          (acc ++ '|' :: t,
           if kv.1 ≠ kBeginString ∧ kv.1 ≠ kBodyLength then u32satAdd b (byteLen t + 1)
           else b) := by
        unfold encStep; rw [he]; simp [hacc]
      rw [List.foldl_cons, hstep, ih _ _ (by simp)]
      simp [emittedTags, he, pipeCat_cons]

theorem encStep_foldl_fst_nil {emit : FStr × FStr → Option FStr}
    (hu : ∀ kv t, emit kv = some t → t ≠ []) (pm : List (FStr × FStr)) (b : Nat) :
    (pm.foldl (encStep emit) ([], b)).1 = joinPipe (emittedTags emit pm) := by
  induction pm generalizing b with
  | nil => rfl
  | cons kv pm ih =>
    rcases he : emit kv with _ | t
    · have hstep : encStep emit ([], b) kv = ([], b) := by
        unfold encStep; rw [he]
      rw [List.foldl_cons, hstep, ih]
      simp [emittedTags, he]
    · have ht : t ≠ [] := hu kv t he
      have hstep : encStep emit ([], b) kv =
          (t, if kv.1 ≠ kBeginString ∧ kv.1 ≠ kBodyLength then u32satAdd b (byteLen t + 1)
              else b) := by
        unfold encStep; rw [he]; simp
      rw [List.foldl_cons, hstep, encStep_foldl_fst pm t _ ht]
      simp [emittedTags, he, joinPipe]

theorem encStep_foldl_snd {emit : FStr × FStr → Option FStr} :
    ∀ (pm : List (FStr × FStr)) (acc : FStr) (b : Nat),
      (pm.foldl (encStep emit) (acc, b)).2 = (countedLens emit pm).foldl u32satAdd b := by
  intro pm
  induction pm with
  | nil => intro acc b; simp [countedLens]
  | cons kv pm ih =>
    intro acc b
    rcases he : emit kv with _ | t
    · have hstep : encStep emit (acc, b) kv = (acc, b) := by
        unfold encStep; rw [he]
      rw [List.foldl_cons, hstep, ih]
      simp [countedLens, he]
    · have hstep2 : (encStep emit (acc, b) kv).2 =
          (if kv.1 ≠ kBeginString ∧ kv.1 ≠ kBodyLength then u32satAdd b (byteLen t + 1)
           else b) := by
        unfold encStep; rw [he]
      rw [List.foldl_cons]
      rcases hif : decide (kv.1 ≠ kBeginString ∧ kv.1 ≠ kBodyLength) with _ | _
      · have hp : ¬(kv.1 ≠ kBeginString ∧ kv.1 ≠ kBodyLength) := of_decide_eq_false hif
        have : encStep emit (acc, b) kv = ((encStep emit (acc, b) kv).1, b) := by
          rw [Prod.ext_iff]
          exact ⟨rfl, by rw [hstep2, if_neg hp]⟩
        rw [this, ih]
        simp [countedLens, he, hp]
      · have hp : kv.1 ≠ kBeginString ∧ kv.1 ≠ kBodyLength := of_decide_eq_true hif
        have : encStep emit (acc, b) kv =
            ((encStep emit (acc, b) kv).1, u32satAdd b (byteLen t + 1)) := by
          rw [Prod.ext_iff]
          exact ⟨rfl, by rw [hstep2, if_pos hp]⟩
        rw [this, ih]
        simp [countedLens, he, hp.1, hp.2]

theorem satAdd_foldl_eq_sum : ∀ (l : List Nat) (b : Nat), b + l.sum ≤ 4294967295 →
    l.foldl u32satAdd b = b + l.sum := by
  intro l
  induction l with
  | nil => intro b _; simp
  | cons x l ih =>
    intro b hb
    have h1 : u32satAdd b x = b + x := by
      unfold u32satAdd
      have : b + x ≤ 4294967295 := by
        have := l.sum.zero_le
        simp [List.sum_cons] at hb
        omega
      omega
    rw [List.foldl_cons, h1, ih (b + x) (by simp [List.sum_cons] at hb; omega)]
    simp [List.sum_cons]
    ring

theorem countedLens_eq_map {emit : FStr × FStr → Option FStr} (pm : List (FStr × FStr))
    (h : ∀ kv ∈ pm, kv.1 ≠ kBeginString ∧ kv.1 ≠ kBodyLength) :
    countedLens emit pm = (emittedTags emit pm).map (fun t => byteLen t + 1) := by
  induction pm with
  | nil => rfl
  | cons kv pm ih =>
    have hkv := h kv (List.mem_cons_self kv pm)
    have ihh := ih (fun x hx => h x (List.mem_cons_of_mem kv hx))
    rcases he : emit kv with _ | t <;>
      simp [countedLens, emittedTags, he, hkv.1, hkv.2] <;>
      simpa [countedLens, emittedTags] using ihh

theorem byteLen_joinPipe (ts : List FStr) (h : ts ≠ []) :
    byteLen (joinPipe ts) + 1 = (ts.map (fun t => byteLen t + 1)).sum := by
  induction ts with
  | nil => exact absurd rfl h
  | cons t ts ih =>
    by_cases hne : ts = []
    · subst hne
      simp [joinPipe, pipeCat, byteLen_append]
    · have hj : joinPipe (t :: ts) = t ++ '|' :: joinPipe ts := by
        show t ++ pipeCat ts = _
        rw [pipeCat_eq_joinPipe ts hne]
      rw [hj, byteLen_append, byteLen_cons, List.map_cons, List.sum_cons, ← ih hne]
      have hpipe : (charUtf8Bytes '|').length = 1 := by decide
      rw [hpipe]
      ring

theorem mem_joinPipe_infix (ts : List FStr) (t : FStr) (ht : t ∈ ts) :
    List.IsInfix (t ++ ['|']) (joinPipe ts ++ ['|']) := by
  induction ts with
  | nil => cases ht
  | cons s ts ih =>
    rcases List.mem_cons.mp ht with h | h
    · subst h
      by_cases hne : ts = []
      · subst hne
        have hq : joinPipe [t] ++ ['|'] = t ++ ['|'] := by simp [joinPipe, pipeCat]
        rw [hq]
      · refine ⟨[], joinPipe ts ++ ['|'], ?_⟩
        rw [List.nil_append]
        show (t ++ ['|']) ++ (joinPipe ts ++ ['|']) = (t ++ pipeCat ts) ++ ['|']
        rw [pipeCat_eq_joinPipe ts hne]
        simp
    · have hne : ts ≠ [] := List.ne_nil_of_mem h
      have hj : joinPipe (s :: ts) ++ ['|'] = s ++ '|' :: (joinPipe ts ++ ['|']) := by
        show (s ++ pipeCat ts) ++ ['|'] = _
        rw [pipeCat_eq_joinPipe ts hne]
        simp
      rw [hj]
      have hsub : List.IsInfix (joinPipe ts ++ ['|']) (s ++ '|' :: (joinPipe ts ++ ['|'])) :=
        ⟨s ++ ['|'], [], by simp⟩
      exact (ih h).trans hsub

theorem infix_replaceHash (seg m d : FStr) (hseg : '#' ∉ seg)
    (h : List.IsInfix seg m) : List.IsInfix seg (replaceHash m d) := by
  rcases h with ⟨x, y, hxy⟩
  refine ⟨replaceHash x d, replaceHash y d, ?_⟩
  rw [← hxy, replaceHash_append, replaceHash_append, replaceHash_of_no_hash seg d hseg]

theorem checksumProp_shape (M : FStr) (cvf : Nat → Nat) (h : ∀ S, cvf S = (S + 1) % 256) :
    checksumProp
      (M ++ '|' :: '1' :: '0' :: '=' :: u8Pad3 (cvf (u32sum (strBytes (toSoh M)))) ++ ['|']) := by
  have hvlt : cvf (u32sum (strBytes (toSoh M))) < 256 := by
    rw [h]
    omega
  refine ⟨M ++ ['|'], u8Pad3 (cvf (u32sum (strBytes (toSoh M)))), ?_, rfl,
    u8Pad3_isDigit _, ?_⟩
  · simp
  · rw [digitsToNat_u8Pad3 _ hvlt, h, u32sum_eq]
    have hsoh : toSoh (M ++ ['|']) = toSoh M ++ [Char.ofNat 1] := by
      rw [toSoh_append]
      rfl
    have hone : byteSum [Char.ofNat 1] = 1 := by decide
    rw [hsoh, byteSum_append, hone]
    unfold byteSum
    omega

theorem finishMsg_checksumProp (m : FStr) (bl : Nat) (cvf : Nat → Nat)
    (h : ∀ S, cvf S = (S + 1) % 256) : checksumProp (finishMsg m bl cvf) :=
  checksumProp_shape (replaceHash m (natStr bl)) cvf h

/-- C1: for every message emitted by either encoder (`msgtype2fixmsg` and
`fixmap2fixmsg`), the three-digit value following the final `10=` equals
the sum of all bytes of the message before the CheckSum field, with SOH
separators, modulo 256.  (The source's `+ 1` exactly accounts for the SOH
that terminates the field preceding `10=`, which its sum omits.) -/
theorem c1_checksum_mod256 :
    (∀ msgtype msg_map nm ov seq now,
      checksumProp (msgtype2fixmsg msgtype msg_map nm ov seq now)) ∧
    (∀ msg_map nm seq now, checksumProp (fixmap2fixmsg msg_map nm seq now)) := by
  constructor
  · intro msgtype msg_map nm ov seq now
    unfold msgtype2fixmsg
    exact finishMsg_checksumProp _ _ _ (fun S => rfl)
  · intro msg_map nm seq now
    unfold fixmap2fixmsg
    exact finishMsg_checksumProp _ _ _ (fun S => by omega)

theorem alookup_append (m1 m2 : List (FStr × FStr)) (k : FStr) :
    alookup (m1 ++ m2) k =
      match alookup m1 k with
      | some v => some v
      | none => alookup m2 k := by
  induction m1 with
  | nil => simp [alookup]
  | cons kv m1 ih =>
    by_cases h : kv.1 = k <;> simp [alookup, h, ih]

theorem alookup_eq_none_of_not_any (m : List (FStr × FStr)) (k : FStr)
    (h : m.any (fun kv => kv.1 = k) = false) : alookup m k = none := by
  induction m with
  | nil => rfl
  | cons kv m ih =>
    rw [List.any_cons, Bool.or_eq_false_iff] at h
    have hk : kv.1 ≠ k := by
      intro he
      rw [he] at h
      simp at h
    simp [alookup, hk, ih h.2]

theorem alookup_update_self (m : List (FStr × FStr)) (k v : FStr)
    (h : m.any (fun kv => kv.1 = k) = true) :
    alookup (m.map (fun kv => if kv.1 = k then (k, v) else kv)) k = some v := by
  induction m with
  | nil => cases h
  | cons kv m ih =>
    by_cases hk : kv.1 = k
    · simp [alookup, hk]
    · rw [List.any_cons] at h
      have hm : m.any (fun kv => kv.1 = k) = true := by
        rcases Bool.or_eq_true_iff.mp h with h1 | h1
        · exact absurd (of_decide_eq_true h1) hk
        · exact h1
      simp [alookup, hk, ih hm]

theorem alookup_update_ne (m : List (FStr × FStr)) (k v k' : FStr) (hne : k' ≠ k) :
    alookup (m.map (fun kv => if kv.1 = k then (k, v) else kv)) k' = alookup m k' := by
  induction m with
  | nil => rfl
  | cons kv m ih =>
    by_cases hk : kv.1 = k
    · have hkk' : k ≠ k' := fun he => hne he.symm
      simp [alookup, hk, hkk', ih]
    · simp only [List.map_cons, if_neg hk]
      by_cases h2 : kv.1 = k' <;> simp [alookup, h2, ih]

theorem alookup_imInsert_self (m : List (FStr × FStr)) (k v : FStr) :
    alookup (imInsert m k v) k = some v := by
  unfold imInsert
  by_cases h : m.any (fun kv => kv.1 = k)
  · rw [if_pos h]
    exact alookup_update_self m k v h
  · rw [if_neg h]
    rw [alookup_append m [(k, v)] k,
      alookup_eq_none_of_not_any m k (Bool.eq_false_iff.mpr h)]
    simp [alookup]

theorem alookup_imInsert_ne (m : List (FStr × FStr)) (k v k' : FStr) (hne : k' ≠ k) :
    alookup (imInsert m k v) k' = alookup m k' := by
  unfold imInsert
  by_cases h : m.any (fun kv => kv.1 = k)
  · rw [if_pos h]
    exact alookup_update_ne m k v k' hne
  · rw [if_neg h, alookup_append m [(k, v)] k']
    have : alookup [(k, v)] k' = none := by
      have hkk' : ¬ k = k' := fun he => hne he.symm
      simp [alookup, hkk']
    rcases hm : alookup m k' with _ | w <;> simp [hm, this]

/-- C8: constructing the sequence-number store from a missing file, or
from content that does not parse as a `{incoming, outgoing}` record,
yields a store whose `get_incoming()` and `get_outgoing()` both return 1. -/
theorem c8_seqstore_fallback (readResult : Option (Option FStr))
    (parse : FStr → Option SequenceNumber)
    (h : readResult = none ∨ ∃ c, readResult = some (some c) ∧ parse c = none) :
    SequenceNumberStore.get_incoming (SequenceNumberStore.new readResult parse) = 1 ∧
    SequenceNumberStore.get_outgoing (SequenceNumberStore.new readResult parse) = 1 := by
  rcases h with h | ⟨c, hr, hp⟩
  · rw [h]
    exact ⟨rfl, rfl⟩
  · rw [hr]
    show SequenceNumberStore.get_incoming ((parse c).getD ⟨1, 1⟩) = 1 ∧
      SequenceNumberStore.get_outgoing ((parse c).getD ⟨1, 1⟩) = 1
    rw [hp]
    exact ⟨rfl, rfl⟩

/-- Witness for C8 at a concrete missing file and a parser that rejects
everything. -/
theorem c8_seqstore_fallback_witness :
    SequenceNumberStore.get_incoming (SequenceNumberStore.new none (fun _ => none)) = 1 ∧
    SequenceNumberStore.get_outgoing (SequenceNumberStore.new none (fun _ => none)) = 1 :=
  c8_seqstore_fallback none (fun _ => none) (Or.inl rfl)

/-- C9: the decoder returns `Ok` with a message-type name and a field map
on every input string and dictionary, malformed fields included; no code
path produces an error. -/
theorem c9_decoder_never_fails (fixmsg : FStr) (fix_tag_number_map : List (Nat × FixTag)) :
    ∃ msgtype msg_map,
      fixmsg2msgtype fixmsg fix_tag_number_map = .ok (msgtype, msg_map) :=
  ⟨_, _, rfl⟩

/-- C10: the body-length back-fill rewrites every `#` in the accumulated
message: for the template whose `Text` value is `a#b`, the emitted message
carries `58=a12b` (the body-length digits `12` spliced into the value) and
the original value no longer occurs. -/
theorem c10_hash_backfill_clobbers_values :
    msgtype2fixmsg ("HashDemo".data) hashMsgMap hashNameDict none 1 now0 =
      ("8=FIX.4.2|9=12|35=X|58=a12b|10=200|".data) ∧
    ¬ List.IsInfix ("a#b".data)
      (msgtype2fixmsg ("HashDemo".data) hashMsgMap hashNameDict none 1 now0) := by
  constructor
  · rfl
  · decide

/-- C2 counterexample: with the store holding exactly id 42 (status
`New`), handling an `OrderCancelRequest` with `OrigClOrdID=42`,
`ClOrdID=43` and every other required field present leaves the store
unchanged: id 42 still has status `New`, not `Canceled` (the update is
keyed by `ClOrdID`, and the failed update on absent id 43 is
swallowed). -/
theorem c2_counterexample :
    (handle_order_cancel_request cancelMsg42 [] sessNameDict sessState0 store42 now0).map
        (fun r => (osLookup r.2 42).map Order.ordstatus) = some (some ("New".data)) ∧
    ¬ (handle_order_cancel_request cancelMsg42 [] sessNameDict sessState0 store42 now0).map
        (fun r => (osLookup r.2 42).map Order.ordstatus) = some (some ("Canceled".data)) := by
  constructor
  · rfl
  · decide

/-- C2 amended: the store update of `handle_order_cancel_request` is keyed
by `ClOrdID`, not `OrigClOrdID`.  With `OrigClOrdID=42`, `ClOrdID=43`, all
other required fields present (`OrderQty`/`Price` numeric), and no order
with id 43 in the store, the handler succeeds and the store — in
particular the order with id 42 — is unchanged; no order becomes
`Canceled`. -/
theorem c2_cancel_keyed_by_clordid (msg_map : List (FStr × FStr))
    (app_msg : List (FStr × List (FStr × FStr))) (nm : List (FStr × FixTag))
    (s : SessionState) (ost : OrderStoreMap) (now : FStr)
    (vsym vside vqty vprice vtype vtime : FStr)
    (horig : alookup msg_map ("OrigClOrdID".data) = some ("42".data))
    (hcl : alookup msg_map ("ClOrdID".data) = some ("43".data))
    (hsym : alookup msg_map ("Symbol".data) = some vsym)
    (hside : alookup msg_map ("Side".data) = some vside)
    (hqty : alookup msg_map ("OrderQty".data) = some vqty)
    (hprice : alookup msg_map ("Price".data) = some vprice)
    (htype : alookup msg_map ("OrdType".data) = some vtype)
    (htime : alookup msg_map ("TransactTime".data) = some vtime)
    (hq : ∃ q, rustParseU64 vqty = some q)
    (hp : ∃ p, rustParseU64 vprice = some p)
    (hno43 : ost.any (fun kv => kv.1 = 43) = false) :
    (handle_order_cancel_request msg_map app_msg nm s ost now).map Prod.snd = some ost := by
  obtain ⟨q, hq⟩ := hq
  obtain ⟨p, hp⟩ := hp
  have hms : ∀ key : FStr, key ≠ ("OrdStatus".data) →
      alookup (imInsert msg_map ("OrdStatus".data) ("Canceled".data)) key =
        alookup msg_map key :=
    fun key hk => alookup_imInsert_ne msg_map _ _ key hk
  have hofm : orderFromMsgMap (imInsert msg_map ("OrdStatus".data) ("Canceled".data)) =
      some ⟨43, (alookup msg_map ("Account".data)).getD [], vsym, vside, q, p,
        vtype, vtime, ("Canceled".data)⟩ := by
    unfold orderFromMsgMap
    rw [hms _ (by decide), hms _ (by decide), hms _ (by decide), hms _ (by decide),
      hms _ (by decide), hms _ (by decide), hms _ (by decide),
      alookup_imInsert_self, hms _ (by decide)]
    rw [hcl, hsym, hside, hqty, hprice, htype, htime]
    simp only
    rw [hq, hp]
    rfl
  have hupd : update_order_in_store ost (imInsert msg_map ("OrdStatus".data) ("Canceled".data)) =
      some ost := by
    unfold update_order_in_store
    rw [hofm]
    unfold OrderStore.update_order
    simp [hno43]
  unfold handle_order_cancel_request
  rw [horig, hcl, hsym, hside, hqty, hprice, htype, htime]
  simp only
  rw [hupd]
  by_cases hi : s.is_initiator <;> simp [hi]

/-- Witness for the amended C2 at the concrete store `{42 ↦ New}` and the
concrete cancel request `OrigClOrdID=42, ClOrdID=43, …`. -/
theorem c2_cancel_keyed_by_clordid_witness :
    (handle_order_cancel_request cancelMsg42 [] sessNameDict sessState0 store42 now0).map
      Prod.snd = some store42 :=
  c2_cancel_keyed_by_clordid cancelMsg42 [] sessNameDict sessState0 store42 now0
    ("XYZ".data) ("1".data) ("10".data) ("25".data) ("2".data) ("T0".data)
    rfl rfl rfl rfl rfl rfl rfl rfl ⟨10, rfl⟩ ⟨25, rfl⟩ rfl

theorem emitT_ne_nil (nm : List (FStr × FixTag)) (now : FStr) (seq : Nat)
    (kv : FStr × FStr) (t : FStr) (h : emitT nm now seq kv = some t) : t ≠ [] :=
  emitTagCore_ne_nil (fun _ _ hx => by cases hx) nm now seq kv t h

theorem emitT_plain (nm : List (FStr × FixTag)) (now : FStr) (seq : Nat) (k v : FStr)
    (tk : FixTag) (hdict : alookup nm k = some tk) (he : tk.enum_values = none)
    (h1 : k ≠ kBodyLength) (h2 : k ≠ kSendingTime) (h3 : k ≠ kMsgSeqNum)
    (h4 : k ≠ kCheckSum) :
    emitT nm now seq (k, v) = some (tk.number ++ '=' :: v) := by
  unfold emitT emitTagCore
  rw [hdict]
  simp only [he, if_neg h1, if_neg h2, if_neg h3, if_neg h4]

theorem mem_mergeOverride_single (m : List (FStr × FStr)) (k v : FStr) :
    (k, v) ∈ mergeOverride m (some [(k, v)]) := by
  show (k, v) ∈ imInsert m k v
  unfold imInsert
  by_cases h : m.any (fun kv => kv.1 = k)
  · rw [if_pos h]
    obtain ⟨kv, hmem, hk⟩ := List.any_eq_true.mp h
    refine List.mem_map.mpr ⟨kv, hmem, ?_⟩
    rw [if_pos (of_decide_eq_true hk)]
  · rw [if_neg h]
    exact List.mem_append_right m (List.mem_singleton.mpr rfl)

/-- An override field that reaches the emit loop with a plain dictionary
entry shows up in the encoded message as `tag=value` followed by the SOH
separator. -/
theorem msgtype2fixmsg_field_infix (mt : FStr)
    (msg_map : List (FStr × List (FStr × FStr))) (nm : List (FStr × FixTag))
    (ov : Option (List (FStr × FStr))) (seq : Nat) (now : FStr)
    (tmpl : List (FStr × FStr)) (k v : FStr) (tk : FixTag)
    (htmpl : alookup msg_map mt = some tmpl)
    (hmem : (k, v) ∈ mergeOverride tmpl ov)
    (hdict : alookup nm k = some tk) (he : tk.enum_values = none)
    (h1 : k ≠ kBodyLength) (h2 : k ≠ kSendingTime) (h3 : k ≠ kMsgSeqNum)
    (h4 : k ≠ kCheckSum)
    (hnum : '#' ∉ tk.number ∧ '|' ∉ tk.number) (hv : '#' ∉ v ∧ '|' ∉ v) :
    List.IsInfix ((tk.number ++ '=' :: v) ++ [Char.ofNat 1])
      (toSoh (msgtype2fixmsg mt msg_map nm ov seq now)) := by
  have hemit := emitT_plain nm now seq k v tk hdict he h1 h2 h3 h4
  have hmem2 : (tk.number ++ '=' :: v) ∈ emittedTags (emitT nm now seq) (mergeOverride tmpl ov) :=
    List.mem_filterMap.mpr ⟨(k, v), hmem, hemit⟩
  have hfold := encStep_foldl_fst_nil (emitT_ne_nil nm now seq)
    (mergeOverride tmpl ov) 0
  have hinfix0 := mem_joinPipe_infix _ _ hmem2
  rw [← hfold] at hinfix0
  -- the loop output and the final message
  have hnohash : '#' ∉ (tk.number ++ '=' :: v) ++ ['|'] := by
    intro hh
    rcases List.mem_append.mp hh with hh | hh
    · rcases List.mem_append.mp hh with hh | hh
      · exact hnum.1 hh
      · rcases List.mem_cons.mp hh with hh | hh
        · cases hh
        · exact hv.1 hh
    · exact absurd (List.mem_singleton.mp hh) (by decide)
  have hnopipe : '|' ∉ tk.number ++ '=' :: v := by
    intro hh
    rcases List.mem_append.mp hh with hh | hh
    · exact hnum.2 hh
    · rcases List.mem_cons.mp hh with hh | hh
      · cases hh
      · exact hv.2 hh
  -- move the infix through replaceHash and into the finished message
  unfold msgtype2fixmsg finishMsg
  rw [htmpl]
  simp only
  set FM := (mergeOverride tmpl ov).foldl (encStep (emitTagCore (fun _ => none) nm now seq)) ([], 0)
    with hFM
  have hfm1 : FM.1 = (((mergeOverride tmpl ov)).foldl
      (encStep (emitT nm now seq)) ([], 0)).1 := rfl
  have hstep1 : List.IsInfix ((tk.number ++ '=' :: v) ++ ['|'])
      (replaceHash (FM.1 ++ ['|']) (natStr FM.2)) := by
    refine infix_replaceHash _ _ _ hnohash ?_
    rw [hfm1]
    exact hinfix0
  rw [replaceHash_append] at hstep1
  have hrp : replaceHash ['|'] (natStr FM.2) = ['|'] := by
    apply replaceHash_of_no_hash
    intro hh
    exact absurd (List.mem_singleton.mp hh) (by decide)
  rw [hrp] at hstep1
  have hstep2 : List.IsInfix ((tk.number ++ '=' :: v) ++ ['|'])
      (replaceHash FM.1 (natStr FM.2) ++ '|' :: '1' :: '0' :: '=' ::
        u8Pad3 ((u32sum (strBytes (toSoh (replaceHash FM.1 (natStr FM.2)))) + 1) % 256) ++ ['|']) := by
    rcases hstep1 with ⟨x, y, hxy⟩
    refine ⟨x, y ++ '1' :: '0' :: '=' ::
      u8Pad3 ((u32sum (strBytes (toSoh (replaceHash FM.1 (natStr FM.2)))) + 1) % 256) ++ ['|'], ?_⟩
    have hsplit : replaceHash FM.1 (natStr FM.2) ++ '|' :: '1' :: '0' :: '=' ::
        u8Pad3 ((u32sum (strBytes (toSoh (replaceHash FM.1 (natStr FM.2)))) + 1) % 256) ++ ['|'] =
        (replaceHash FM.1 (natStr FM.2) ++ ['|']) ++ ('1' :: '0' :: '=' ::
          u8Pad3 ((u32sum (strBytes (toSoh (replaceHash FM.1 (natStr FM.2)))) + 1) % 256) ++ ['|']) := by
      simp
    rw [hsplit, ← hxy]
    simp
  have hmap := List.IsInfix.map (fun c => if c = '|' then Char.ofNat 1 else c) hstep2
  have hseg : toSoh ((tk.number ++ '=' :: v) ++ ['|']) = (tk.number ++ '=' :: v) ++ [Char.ofNat 1] := by
    rw [toSoh_append, toSoh_of_no_pipe _ hnopipe]
    rfl
  rw [← hseg]
  exact hmap

/-- Reduction of `process_fix_message` past the parse/validate/decode
pipeline to its sequence-discipline core. -/
theorem process_reduce (message : FStr) (coll : MessageMap) (s : SessionState)
    (ost : OrderStoreMap) (now : FStr) (fm : FixMessage) (msgtype : FStr)
    (msg_map : List (FStr × FStr)) (sobs : FStr) (obs : Nat)
    (hparse : FixMessage.parse (toPipe message) = .ok fm)
    (hval : fm.validate coll.required_fields coll.valid_msg_types
      coll.msgnumber_fields_map = true)
    (hdec : fixmsg2msgtype message coll.fix_tag_number_map = .ok (msgtype, msg_map))
    (hobs : alookup msg_map kMsgSeqNum = some sobs)
    (hpobs : rustParseU64 sobs = some obs) :
    process_fix_message message coll s ost now =
      if s.incoming = obs then
        (if is_admin_message msgtype coll.admin_msg_list then
          match handle_admin_message msgtype msg_map coll.admin_msg coll.fix_tag_name_map
              now { s with incoming := s.incoming + 1 } with
          | none => none
          | some (s₂, acts) => some (s₂, ost, Action.dispatchAdmin msgtype :: acts)
        else
          match handle_business_message msgtype msg_map coll.app_msg coll.fix_tag_name_map
              { s with incoming := s.incoming + 1 } ost now with
          | none => none
          | some (s₂, ost₂, acts) => some (s₂, ost₂, Action.dispatchBusiness msgtype :: acts))
      else if s.incoming < obs then
        (if msgtype = ("SEQUENCE_RESET".data) then
          match handle_admin_message msgtype msg_map coll.admin_msg coll.fix_tag_name_map
              now s with
          | none => none
          | some (s₂, acts) => some (s₂, ost, Action.dispatchAdmin msgtype :: acts)
        else
          some ((handle_resend_request s.incoming coll s now).1, ost,
            (handle_resend_request s.incoming coll s now).2))
      else
        some ((handle_logout (seqTooLowText s.incoming obs) coll s now).1, ost,
          (handle_logout (seqTooLowText s.incoming obs) coll s now).2 ++
            [Action.exitProcess 1]) := by
  simp only [process_fix_message]
  rw [hparse]
  simp only
  rw [hval]
  simp only [if_true]
  rw [hdec]
  simp only
  rw [hobs]
  simp only [Option.some_bind]
  rw [hpobs]

/-- The `SEQUENCE_RESET` branch of `handle_admin_message`: sets the
outgoing counter, leaves everything else alone, sends nothing. -/
theorem handle_admin_seqreset (msg_map : List (FStr × FStr))
    (admin_msg : List (FStr × List (FStr × FStr))) (nm : List (FStr × FixTag))
    (now : FStr) (s : SessionState) (sN : FStr) (N : Nat)
    (hN : alookup msg_map kNewSeqNo = some sN) (hpN : rustParseU64 sN = some N) :
    handle_admin_message ("SEQUENCE_RESET".data) msg_map admin_msg nm now s =
      some ({ s with outgoing := N }, []) := by
  unfold handle_admin_message
  have h1 : ¬ (s.sent_logon ∧ ("SEQUENCE_RESET".data : FStr) = ("LOGON".data)) := by
    rintro ⟨-, h⟩
    exact absurd h (by decide)
  rw [if_neg h1, if_neg (by decide : ¬ ("SEQUENCE_RESET".data : FStr) = ("LOGON".data)),
    if_neg (by decide : ¬ (("SEQUENCE_RESET".data : FStr) = ("HEARTBEAT".data) ∨
      ("SEQUENCE_RESET".data : FStr) = ("TEST_REQUEST".data))),
    if_neg (by decide : ¬ ("SEQUENCE_RESET".data : FStr) = ("RESEND_REQUEST".data)),
    if_pos rfl, hN]
  simp only
  rw [hpN]
  simp

/-- C3 counterexample: a received `SequenceReset` carrying `NewSeqNo = 10`
whose `MsgSeqNum` (3) is below the expected incoming counter (5) takes the
sequence-too-low path: the outgoing counter becomes 8 (old value plus one
for the Logout), not 10. -/
theorem c3_counterexample :
    (process_fix_message msgSeqResetLow collW sessState0 [] now0).map
      (fun r => SessionState.outgoing r.1) = some 8 ∧
    ¬ (process_fix_message msgSeqResetLow collW sessState0 [] now0).map
      (fun r => SessionState.outgoing r.1) = some 10 := by
  constructor
  · rfl
  · decide

/-- C3 amended: for every received SequenceReset carrying `NewSeqNo = N`
whose `MsgSeqNum` is at or above the expected incoming counter (and, when
it is equal, SequenceReset is configured as an admin type), the engine
sets the outgoing counter to `N`; the incoming counter is not set to `N`
— it advances by one exactly when the sequence numbers matched.  A
SequenceReset below the expected counter instead takes the Logout/exit
path (see the counterexample). -/
theorem c3_sequence_reset_sets_outgoing (message : FStr) (coll : MessageMap)
    (s : SessionState) (ost : OrderStoreMap) (now : FStr) (fm : FixMessage)
    (msg_map : List (FStr × FStr)) (sobs sN : FStr) (obs N : Nat)
    (hparse : FixMessage.parse (toPipe message) = .ok fm)
    (hval : fm.validate coll.required_fields coll.valid_msg_types
      coll.msgnumber_fields_map = true)
    (hdec : fixmsg2msgtype message coll.fix_tag_number_map =
      .ok (("SEQUENCE_RESET".data), msg_map))
    (hobs : alookup msg_map kMsgSeqNum = some sobs)
    (hpobs : rustParseU64 sobs = some obs)
    (hge : s.incoming ≤ obs)
    (hadm : s.incoming = obs →
      is_admin_message ("SEQUENCE_RESET".data) coll.admin_msg_list = true)
    (hN : alookup msg_map kNewSeqNo = some sN)
    (hpN : rustParseU64 sN = some N) :
    process_fix_message message coll s ost now =
      some ({ s with
          incoming := if s.incoming = obs then s.incoming + 1 else s.incoming,
          outgoing := N }, ost,
        [Action.dispatchAdmin ("SEQUENCE_RESET".data)]) := by
  rw [process_reduce message coll s ost now fm _ msg_map sobs obs hparse hval hdec hobs hpobs]
  by_cases heq : s.incoming = obs
  · rw [if_pos heq, if_pos (hadm heq),
      handle_admin_seqreset msg_map coll.admin_msg coll.fix_tag_name_map now
        { s with incoming := s.incoming + 1 } sN N hN hpN]
    simp only
    rw [if_pos heq]
  · have hlt : s.incoming < obs := lt_of_le_of_ne hge heq
    rw [if_neg heq, if_pos hlt, if_pos rfl,
      handle_admin_seqreset msg_map coll.admin_msg coll.fix_tag_name_map now s sN N hN hpN]
    simp only
    rw [if_neg heq]

/-- Witness for the amended C3: `35=4|36=10|34=8` against expected
incoming 5 sets outgoing to 10 and leaves incoming at 5. -/
theorem c3_sequence_reset_sets_outgoing_witness :
    process_fix_message msgSeqResetGap collW sessState0 [] now0 =
      some ({ sessState0 with
          incoming := if sessState0.incoming = 8 then sessState0.incoming + 1
            else sessState0.incoming,
          outgoing := 10 }, [],
        [Action.dispatchAdmin ("SEQUENCE_RESET".data)]) :=
  c3_sequence_reset_sets_outgoing msgSeqResetGap collW sessState0 [] now0
    ⟨[(("8".data), ("FIX.4.2".data)), (("35".data), ("4".data)),
      (("36".data), ("10".data)), (("34".data), ("8".data)),
      (("10".data), ("000".data))]⟩
    [(kBeginString, ("FIX.4.2".data)), (kMsgType, ("SEQUENCE_RESET".data)),
      (kNewSeqNo, ("10".data)), (kMsgSeqNum, ("8".data)), (kCheckSum, ("000".data))]
    ("8".data) ("10".data) 8 10 rfl rfl rfl rfl rfl (by decide)
    (fun h => absurd h (by decide)) rfl rfl

/-- C4: a received non-SequenceReset message with `MsgSeqNum` strictly
above the expected incoming counter triggers exactly one outbound
`Resend_Request` whose `BeginSeqNo` override is the expected counter (the
wire bytes contain `7=<expected>` followed by SOH under the dictionary
hypotheses); the incoming counter is not advanced and the message is not
dispatched to an admin or business handler. -/
theorem c4_gap_sends_resend_request (message : FStr) (coll : MessageMap)
    (s : SessionState) (ost : OrderStoreMap) (now : FStr) (fm : FixMessage)
    (msgtype : FStr) (msg_map : List (FStr × FStr)) (sobs : FStr) (obs : Nat)
    (rtmpl : List (FStr × FStr)) (t7 : FixTag)
    (hparse : FixMessage.parse (toPipe message) = .ok fm)
    (hval : fm.validate coll.required_fields coll.valid_msg_types
      coll.msgnumber_fields_map = true)
    (hdec : fixmsg2msgtype message coll.fix_tag_number_map = .ok (msgtype, msg_map))
    (hobs : alookup msg_map kMsgSeqNum = some sobs)
    (hpobs : rustParseU64 sobs = some obs)
    (hgt : s.incoming < obs)
    (hns : msgtype ≠ ("SEQUENCE_RESET".data))
    (htmpl : alookup coll.admin_msg ("Resend_Request".data) = some rtmpl)
    (h7 : alookup coll.fix_tag_name_map kBeginSeqNo = some t7)
    (h7e : t7.enum_values = none)
    (h7c : '#' ∉ t7.number ∧ '|' ∉ t7.number) :
    process_fix_message message coll s ost now =
      some ({ s with outgoing := s.outgoing + 1 }, ost,
        [Action.send (toSoh (msgtype2fixmsg ("Resend_Request".data) coll.admin_msg
          coll.fix_tag_name_map (some [(kBeginSeqNo, natStr s.incoming)]) s.outgoing now))]) ∧
    (∀ mt,
      Action.dispatchAdmin mt ∉
        [Action.send (toSoh (msgtype2fixmsg ("Resend_Request".data) coll.admin_msg
          coll.fix_tag_name_map (some [(kBeginSeqNo, natStr s.incoming)]) s.outgoing now))] ∧
      Action.dispatchBusiness mt ∉
        [Action.send (toSoh (msgtype2fixmsg ("Resend_Request".data) coll.admin_msg
          coll.fix_tag_name_map (some [(kBeginSeqNo, natStr s.incoming)]) s.outgoing now))]) ∧
    List.IsInfix ((t7.number ++ '=' :: natStr s.incoming) ++ [Char.ofNat 1])
      (toSoh (msgtype2fixmsg ("Resend_Request".data) coll.admin_msg coll.fix_tag_name_map
        (some [(kBeginSeqNo, natStr s.incoming)]) s.outgoing now)) := by
  refine ⟨?_, ?_, ?_⟩
  · rw [process_reduce message coll s ost now fm msgtype msg_map sobs obs
      hparse hval hdec hobs hpobs]
    rw [if_neg (Nat.ne_of_lt hgt), if_pos hgt, if_neg hns]
    rfl
  · intro mt
    constructor <;> simp
  · exact msgtype2fixmsg_field_infix ("Resend_Request".data) coll.admin_msg
      coll.fix_tag_name_map (some [(kBeginSeqNo, natStr s.incoming)]) s.outgoing now
      rtmpl kBeginSeqNo (natStr s.incoming) t7 htmpl
      (mem_mergeOverride_single rtmpl kBeginSeqNo (natStr s.incoming))
      h7 h7e (by decide) (by decide) (by decide) (by decide) h7c
      ⟨natStr_no_hash s.incoming, natStr_no_pipe s.incoming⟩

/-- Witness for C4: `35=D|34=8` against expected incoming 5 with the
concrete dictionaries sends one `Resend_Request` with `7=5` and leaves
incoming at 5. -/
theorem c4_gap_sends_resend_request_witness :
    process_fix_message msgGap collW sessState0 [] now0 =
      some ({ sessState0 with outgoing := sessState0.outgoing + 1 }, [],
        [Action.send (toSoh (msgtype2fixmsg ("Resend_Request".data) collW.admin_msg
          collW.fix_tag_name_map (some [(kBeginSeqNo, natStr sessState0.incoming)])
          sessState0.outgoing now0))]) ∧
    List.IsInfix (((mkTag ("7".data) kBeginSeqNo none).number ++
        '=' :: natStr sessState0.incoming) ++ [Char.ofNat 1])
      (toSoh (msgtype2fixmsg ("Resend_Request".data) collW.admin_msg collW.fix_tag_name_map
        (some [(kBeginSeqNo, natStr sessState0.incoming)]) sessState0.outgoing now0)) := by
  have h := c4_gap_sends_resend_request msgGap collW sessState0 [] now0
    ⟨[(("8".data), ("FIX.4.2".data)), (("35".data), ("D".data)),
      (("34".data), ("8".data)), (("10".data), ("000".data))]⟩
    ("NEW_ORDER_SINGLE".data)
    [(kBeginString, ("FIX.4.2".data)), (kMsgType, ("NEW_ORDER_SINGLE".data)),
      (kMsgSeqNum, ("8".data)), (kCheckSum, ("000".data))]
    ("8".data) 8
    (alookup sessAdminMsg ("Resend_Request".data)).iget
    (mkTag ("7".data) kBeginSeqNo none)
    rfl rfl rfl rfl rfl (by decide) (by decide) rfl rfl rfl (by decide)
  exact ⟨h.1, h.2.2⟩

/-- C5: a received message with `MsgSeqNum` strictly below the expected
incoming counter triggers one outbound `Logout` whose `Text` override is
the sequence-too-low text mentioning both the expected and the received
numbers (on the wire as `58=<text>` followed by SOH under the dictionary
hypotheses), increments the outgoing counter, and then terminates the
process (exit code 1). -/
theorem c5_low_seqnum_logout_exit (message : FStr) (coll : MessageMap)
    (s : SessionState) (ost : OrderStoreMap) (now : FStr) (fm : FixMessage)
    (msgtype : FStr) (msg_map : List (FStr × FStr)) (sobs : FStr) (obs : Nat)
    (ltmpl : List (FStr × FStr)) (t58 : FixTag)
    (hparse : FixMessage.parse (toPipe message) = .ok fm)
    (hval : fm.validate coll.required_fields coll.valid_msg_types
      coll.msgnumber_fields_map = true)
    (hdec : fixmsg2msgtype message coll.fix_tag_number_map = .ok (msgtype, msg_map))
    (hobs : alookup msg_map kMsgSeqNum = some sobs)
    (hpobs : rustParseU64 sobs = some obs)
    (hlt : obs < s.incoming)
    (htmpl : alookup coll.admin_msg ("Logout".data) = some ltmpl)
    (h58 : alookup coll.fix_tag_name_map kText = some t58)
    (h58e : t58.enum_values = none)
    (h58c : '#' ∉ t58.number ∧ '|' ∉ t58.number) :
    process_fix_message message coll s ost now =
      some ({ s with outgoing := s.outgoing + 1 }, ost,
        [Action.send (toSoh (msgtype2fixmsg ("Logout".data) coll.admin_msg
          coll.fix_tag_name_map (some [(kText, seqTooLowText s.incoming obs)])
          s.outgoing now)),
         Action.exitProcess 1]) ∧
    List.IsInfix (natStr s.incoming) (seqTooLowText s.incoming obs) ∧
    List.IsInfix (natStr obs) (seqTooLowText s.incoming obs) ∧
    List.IsInfix ((t58.number ++ '=' :: seqTooLowText s.incoming obs) ++ [Char.ofNat 1])
      (toSoh (msgtype2fixmsg ("Logout".data) coll.admin_msg coll.fix_tag_name_map
        (some [(kText, seqTooLowText s.incoming obs)]) s.outgoing now)) := by
  refine ⟨?_, ?_, ?_, ?_⟩
  · rw [process_reduce message coll s ost now fm msgtype msg_map sobs obs
      hparse hval hdec hobs hpobs]
    rw [if_neg (by omega : ¬ s.incoming = obs), if_neg (by omega : ¬ s.incoming < obs)]
    rfl
  · exact ⟨("MsgSeqNum too low, expecting ".data),
      (" but received ".data) ++ natStr obs ++ ("!!".data), by simp [seqTooLowText]⟩
  · exact ⟨("MsgSeqNum too low, expecting ".data) ++ natStr s.incoming ++
      (" but received ".data), ("!!".data), by simp [seqTooLowText]⟩
  · refine msgtype2fixmsg_field_infix ("Logout".data) coll.admin_msg
      coll.fix_tag_name_map (some [(kText, seqTooLowText s.incoming obs)]) s.outgoing now
      ltmpl kText (seqTooLowText s.incoming obs) t58 htmpl
      (mem_mergeOverride_single ltmpl kText (seqTooLowText s.incoming obs))
      h58 h58e (by decide) (by decide) (by decide) (by decide) h58c ⟨?_, ?_⟩
    · intro h
      unfold seqTooLowText at h
      simp only [List.mem_append] at h
      rcases h with (((h | h) | h) | h) | h
      · exact absurd h (by decide)
      · exact natStr_no_hash s.incoming h
      · exact absurd h (by decide)
      · exact natStr_no_hash obs h
      · exact absurd h (by decide)
    · intro h
      unfold seqTooLowText at h
      simp only [List.mem_append] at h
      rcases h with (((h | h) | h) | h) | h
      · exact absurd h (by decide)
      · exact natStr_no_pipe s.incoming h
      · exact absurd h (by decide)
      · exact natStr_no_pipe obs h
      · exact absurd h (by decide)

/-- Witness for C5: `35=D|34=3` against expected incoming 5 sends the
Logout with the sequence-too-low text and exits. -/
theorem c5_low_seqnum_logout_exit_witness :
    process_fix_message msgLow collW sessState0 [] now0 =
      some ({ sessState0 with outgoing := sessState0.outgoing + 1 }, [],
        [Action.send (toSoh (msgtype2fixmsg ("Logout".data) collW.admin_msg
          collW.fix_tag_name_map (some [(kText, seqTooLowText sessState0.incoming 3)])
          sessState0.outgoing now0)),
         Action.exitProcess 1]) ∧
    List.IsInfix (natStr sessState0.incoming) (seqTooLowText sessState0.incoming 3) ∧
    List.IsInfix (natStr 3) (seqTooLowText sessState0.incoming 3) := by
  have h := c5_low_seqnum_logout_exit msgLow collW sessState0 [] now0
    ⟨[(("8".data), ("FIX.4.2".data)), (("35".data), ("D".data)),
      (("34".data), ("3".data)), (("10".data), ("000".data))]⟩
    ("NEW_ORDER_SINGLE".data)
    [(kBeginString, ("FIX.4.2".data)), (kMsgType, ("NEW_ORDER_SINGLE".data)),
      (kMsgSeqNum, ("3".data)), (kCheckSum, ("000".data))]
    ("3".data) 3
    (alookup sessAdminMsg ("Logout".data)).iget
    (mkTag ("58".data) kText none)
    rfl rfl rfl rfl rfl (by decide) rfl rfl rfl (by decide)
  exact ⟨h.1, h.2.1, h.2.2.1⟩

theorem no_hash_pipeCat (ts : List FStr) (h : ∀ t ∈ ts, '#' ∉ t) : '#' ∉ pipeCat ts := by
  intro hm
  unfold pipeCat at hm
  rcases List.mem_flatMap.mp hm with ⟨t, ht, hmt⟩
  rcases List.mem_cons.mp hmt with he | he
  · exact absurd he (by decide)
  · exact h t ht he

theorem emitTagCore_bodylength (u : FStr × FStr → Option FStr)
    (nm : List (FStr × FixTag)) (now : FStr) (seq : Nat) (vl : FStr) (t9 : FixTag)
    (h9 : alookup nm kBodyLength = some t9) (h9e : t9.enum_values = none) :
    emitTagCore u nm now seq (kBodyLength, vl) = some (t9.number ++ '=' :: ['#']) := by
  unfold emitTagCore
  rw [h9]
  simp only [h9e, if_pos rfl]
  rw [if_neg (by decide : ¬ (kBodyLength = kSendingTime)),
    if_neg (by decide : ¬ (kBodyLength = kMsgSeqNum)),
    if_neg (by decide : ¬ (kBodyLength = kCheckSum))]
  simp

/-- Shape of a finished encoder message whose field list starts with
`BeginString` and `BodyLength`: the back-filled body-length digits are the
octet count of the wire form strictly between the `BodyLength`
terminator and the `CheckSum` field, i.e. the summed length (trailing
separators included) of the remaining emitted fields. -/
theorem encode_bodylength_shape (emit : FStr × FStr → Option FStr)
    (hu : ∀ kv t, emit kv = some t → t ≠ [])
    (vb vl : FStr) (rest : List (FStr × FStr)) (tagB num9 : FStr) (cvf : Nat → Nat)
    (hB : emit (kBeginString, vb) = some tagB)
    (h9 : emit (kBodyLength, vl) = some (num9 ++ '=' :: ['#']))
    (hrest : ∀ kv ∈ rest, kv.1 ≠ kBeginString ∧ kv.1 ≠ kBodyLength)
    (hne : emittedTags emit rest ≠ [])
    (hhB : '#' ∉ tagB) (hh9 : '#' ∉ num9)
    (hhr : ∀ t ∈ emittedTags emit rest, '#' ∉ t)
    (hsat : ((emittedTags emit rest).map (fun t => byteLen t + 1)).sum ≤ 4294967295) :
    ∃ ccc,
      finishMsg ((((kBeginString, vb) :: (kBodyLength, vl) :: rest).foldl
          (encStep emit) ([], 0)).1)
        ((((kBeginString, vb) :: (kBodyLength, vl) :: rest).foldl (encStep emit) ([], 0)).2)
        cvf =
      tagB ++ ['|'] ++ num9 ++ ['='] ++
        natStr (((emittedTags emit rest).map (fun t => byteLen t + 1)).sum) ++ ['|'] ++
        joinPipe (emittedTags emit rest) ++ ['|'] ++ ('1' :: '0' :: '=' :: []) ++
        ccc ++ ['|'] ∧
      byteLen (toSoh (joinPipe (emittedTags emit rest) ++ ['|'])) =
        ((emittedTags emit rest).map (fun t => byteLen t + 1)).sum ∧
      (∀ c ∈ ccc, c.isDigit = true) := by
  have htagB_ne : tagB ≠ [] := hu _ _ hB
  have hstep0 : encStep emit ([], 0) (kBeginString, vb) = (tagB, 0) := by
    unfold encStep
    rw [hB]
    simp
  have hstep1 : encStep emit (tagB, 0) (kBodyLength, vl) =
      (tagB ++ '|' :: (num9 ++ '=' :: ['#']), 0) := by
    unfold encStep
    rw [h9]
    simp [htagB_ne]
  have hfst := @encStep_foldl_fst emit rest (tagB ++ '|' :: (num9 ++ '=' :: ['#'])) 0
    (by simp)
  have hsnd : (rest.foldl (encStep emit) (tagB ++ '|' :: (num9 ++ '=' :: ['#']), 0)).2 =
      ((emittedTags emit rest).map (fun t => byteLen t + 1)).sum := by
    rw [encStep_foldl_snd rest _ 0, countedLens_eq_map rest hrest,
      satAdd_foldl_eq_sum _ 0 (by omega)]
    omega
  have hloop : (((kBeginString, vb) :: (kBodyLength, vl) :: rest).foldl
      (encStep emit) ([], 0)) =
      ((tagB ++ '|' :: (num9 ++ '=' :: ['#'])) ++ pipeCat (emittedTags emit rest),
        ((emittedTags emit rest).map (fun t => byteLen t + 1)).sum) := by
    rw [List.foldl_cons, hstep0, List.foldl_cons, hstep1]
    have hpair : rest.foldl (encStep emit) (tagB ++ '|' :: (num9 ++ '=' :: ['#']), 0) =
        ((rest.foldl (encStep emit) (tagB ++ '|' :: (num9 ++ '=' :: ['#']), 0)).1,
         (rest.foldl (encStep emit) (tagB ++ '|' :: (num9 ++ '=' :: ['#']), 0)).2) := rfl
    rw [hpair, hfst, hsnd]
  have hpcR : '#' ∉ pipeCat (emittedTags emit rest) := no_hash_pipeCat _ hhr
  have hL :
      replaceHash ((tagB ++ '|' :: (num9 ++ '=' :: ['#'])) ++ pipeCat (emittedTags emit rest))
        (natStr (((emittedTags emit rest).map (fun t => byteLen t + 1)).sum)) =
      (tagB ++ '|' :: (num9 ++ '=' ::
        natStr (((emittedTags emit rest).map (fun t => byteLen t + 1)).sum))) ++
        pipeCat (emittedTags emit rest) := by
    rw [replaceHash_append, replaceHash_of_no_hash _ _ hpcR, replaceHash_append,
      replaceHash_of_no_hash _ _ hhB, replaceHash_cons,
      if_neg (by decide : ¬ ('|' = '#')), replaceHash_append,
      replaceHash_of_no_hash _ _ hh9, replaceHash_cons,
      if_neg (by decide : ¬ ('=' = '#')), replaceHash_cons,
      if_pos rfl]
    show tagB ++ (['|'] ++ (num9 ++ (['='] ++ (_ ++ replaceHash [] _)))) ++ _ = _
    simp [replaceHash]
  rw [hloop]
  simp only
  unfold finishMsg
  rw [hL]
  refine ⟨u8Pad3 (cvf (u32sum (strBytes (toSoh ((tagB ++ '|' :: (num9 ++ '=' ::
    natStr (((emittedTags emit rest).map (fun t => byteLen t + 1)).sum))) ++
    pipeCat (emittedTags emit rest)))))), ?_, ?_, u8Pad3_isDigit _⟩
  · rw [pipeCat_eq_joinPipe _ hne]
    simp
  · rw [byteLen_toSoh, byteLen_append]
    have h1 : byteLen ['|'] = 1 := by decide
    have h2 := byteLen_joinPipe (emittedTags emit rest) hne
    omega

theorem emitF_ne_nil (nm : List (FStr × FixTag)) (now : FStr) (seq : Nat)
    (kv : FStr × FStr) (t : FStr) (h : emitF nm now seq kv = some t) : t ≠ [] :=
  emitTagCore_ne_nil (fun kv t h => by cases h; simp) nm now seq kv t h

/-- C7: in both encoders, whenever the (merged) field list starts with
`BeginString` then `BodyLength` (plain dictionary entry) and at least one
further field is emitted, the value written for `BodyLength` is the octet
count of the wire form strictly between the `BodyLength` field's
terminating separator and the `CheckSum` field — the summed length,
trailing separators included, of every emitted field other than
`BeginString`, `BodyLength` and the never-emitted `CheckSum`. -/
theorem c7_bodylength_octet_count (msgtype : FStr)
    (msg_map : List (FStr × List (FStr × FStr))) (nm : List (FStr × FixTag))
    (ov : Option (List (FStr × FStr))) (seq : Nat) (now : FStr)
    (tmpl : List (FStr × FStr)) (vb vl : FStr) (rest : List (FStr × FStr))
    (tagB : FStr) (t9 : FixTag)
    (mm2 : List (FStr × FStr)) (nm2 : List (FStr × FixTag)) (seq2 : Nat) (now2 : FStr)
    (vb2 vl2 : FStr) (rest2 : List (FStr × FStr)) (tagB2 : FStr) (t92 : FixTag)
    (htmpl : alookup msg_map msgtype = some tmpl)
    (hpm : mergeOverride tmpl ov = (kBeginString, vb) :: (kBodyLength, vl) :: rest)
    (hB : emitT nm now seq (kBeginString, vb) = some tagB)
    (h9 : alookup nm kBodyLength = some t9) (h9e : t9.enum_values = none)
    (hrest : ∀ kv ∈ rest, kv.1 ≠ kBeginString ∧ kv.1 ≠ kBodyLength)
    (hne : emittedTags (emitT nm now seq) rest ≠ [])
    (hhB : '#' ∉ tagB) (hh9 : '#' ∉ t9.number)
    (hhr : ∀ t ∈ emittedTags (emitT nm now seq) rest, '#' ∉ t)
    (hsat : ((emittedTags (emitT nm now seq) rest).map (fun t => byteLen t + 1)).sum ≤
      4294967295)
    (hpm2 : mm2 = (kBeginString, vb2) :: (kBodyLength, vl2) :: rest2)
    (hB2 : emitF nm2 now2 seq2 (kBeginString, vb2) = some tagB2)
    (h92 : alookup nm2 kBodyLength = some t92) (h92e : t92.enum_values = none)
    (hrest2 : ∀ kv ∈ rest2, kv.1 ≠ kBeginString ∧ kv.1 ≠ kBodyLength)
    (hne2 : emittedTags (emitF nm2 now2 seq2) rest2 ≠ [])
    (hhB2 : '#' ∉ tagB2) (hh92 : '#' ∉ t92.number)
    (hhr2 : ∀ t ∈ emittedTags (emitF nm2 now2 seq2) rest2, '#' ∉ t)
    (hsat2 : ((emittedTags (emitF nm2 now2 seq2) rest2).map (fun t => byteLen t + 1)).sum ≤
      4294967295) :
    (∃ ccc, msgtype2fixmsg msgtype msg_map nm ov seq now =
        tagB ++ ['|'] ++ t9.number ++ ['='] ++
          natStr (((emittedTags (emitT nm now seq) rest).map (fun t => byteLen t + 1)).sum) ++
          ['|'] ++ joinPipe (emittedTags (emitT nm now seq) rest) ++ ['|'] ++
          ('1' :: '0' :: '=' :: []) ++ ccc ++ ['|'] ∧
      byteLen (toSoh (joinPipe (emittedTags (emitT nm now seq) rest) ++ ['|'])) =
        ((emittedTags (emitT nm now seq) rest).map (fun t => byteLen t + 1)).sum) ∧
    (∃ ccc, fixmap2fixmsg mm2 nm2 seq2 now2 =
        tagB2 ++ ['|'] ++ t92.number ++ ['='] ++
          natStr (((emittedTags (emitF nm2 now2 seq2) rest2).map (fun t => byteLen t + 1)).sum) ++
          ['|'] ++ joinPipe (emittedTags (emitF nm2 now2 seq2) rest2) ++ ['|'] ++
          ('1' :: '0' :: '=' :: []) ++ ccc ++ ['|'] ∧
      byteLen (toSoh (joinPipe (emittedTags (emitF nm2 now2 seq2) rest2) ++ ['|'])) =
        ((emittedTags (emitF nm2 now2 seq2) rest2).map (fun t => byteLen t + 1)).sum) := by
  constructor
  · have key := encode_bodylength_shape (emitT nm now seq) (emitT_ne_nil nm now seq)
      vb vl rest tagB t9.number (fun checksum => (checksum + 1) % 256) hB
      (emitTagCore_bodylength (fun _ => none) nm now seq vl t9 h9 h9e)
      hrest hne hhB hh9 hhr hsat
    obtain ⟨ccc, hEq, hLen, -⟩ := key
    simp only [msgtype2fixmsg]
    rw [htmpl]
    simp only
    rw [hpm]
    exact ⟨ccc, hEq, hLen⟩
  · have key := encode_bodylength_shape (emitF nm2 now2 seq2) (emitF_ne_nil nm2 now2 seq2)
      vb2 vl2 rest2 tagB2 t92.number (fun checksum => (checksum % 256 + 1) % 256) hB2
      (emitTagCore_bodylength (fun kv => some (kv.1 ++ '=' :: kv.2)) nm2 now2 seq2 vl2 t92
        h92 h92e)
      hrest2 hne2 hhB2 hh92 hhr2 hsat2
    obtain ⟨ccc, hEq, hLen, -⟩ := key
    simp only [fixmap2fixmsg]
    rw [hpm2]
    exact ⟨ccc, hEq, hLen⟩

/-- Witness for C7 on the seed `Logon` template for both encoders. -/
theorem c7_bodylength_octet_count_witness :
    (∃ ccc, msgtype2fixmsg kLogon seedAppMsg seedNameDict none 1 now0 =
        ("8=FIX.4.2".data) ++ ['|'] ++ ("9".data) ++ ['='] ++
          natStr (((emittedTags (emitT seedNameDict now0 1) (logonTmpl.drop 2)).map
            (fun t => byteLen t + 1)).sum) ++
          ['|'] ++ joinPipe (emittedTags (emitT seedNameDict now0 1) (logonTmpl.drop 2)) ++
          ['|'] ++ ('1' :: '0' :: '=' :: []) ++ ccc ++ ['|'] ∧
      byteLen (toSoh (joinPipe (emittedTags (emitT seedNameDict now0 1)
          (logonTmpl.drop 2)) ++ ['|'])) =
        ((emittedTags (emitT seedNameDict now0 1) (logonTmpl.drop 2)).map
          (fun t => byteLen t + 1)).sum) ∧
    (∃ ccc, fixmap2fixmsg logonTmpl seedNameDict 1 now0 =
        ("8=FIX.4.2".data) ++ ['|'] ++ ("9".data) ++ ['='] ++
          natStr (((emittedTags (emitF seedNameDict now0 1) (logonTmpl.drop 2)).map
            (fun t => byteLen t + 1)).sum) ++
          ['|'] ++ joinPipe (emittedTags (emitF seedNameDict now0 1) (logonTmpl.drop 2)) ++
          ['|'] ++ ('1' :: '0' :: '=' :: []) ++ ccc ++ ['|'] ∧
      byteLen (toSoh (joinPipe (emittedTags (emitF seedNameDict now0 1)
          (logonTmpl.drop 2)) ++ ['|'])) =
        ((emittedTags (emitF seedNameDict now0 1) (logonTmpl.drop 2)).map
          (fun t => byteLen t + 1)).sum) :=
  c7_bodylength_octet_count kLogon seedAppMsg seedNameDict none 1 now0
    logonTmpl ("FIX.4.2".data) [] (logonTmpl.drop 2)
    ("8=FIX.4.2".data) (mkTag ("9".data) kBodyLength none)
    logonTmpl seedNameDict 1 now0 ("FIX.4.2".data) [] (logonTmpl.drop 2)
    ("8=FIX.4.2".data) (mkTag ("9".data) kBodyLength none)
    rfl rfl rfl rfl rfl (by decide) (by decide) (by decide) (by decide) (by decide)
    (by decide) rfl rfl rfl rfl (by decide) (by decide) (by decide) (by decide)
    (by decide) (by decide)

theorem splitOnChar_no_sep (sep : Char) (t : FStr) (h : sep ∉ t) :
    splitOnChar sep t = [t] := by
  induction t with
  | nil => rfl
  | cons c t ih =>
    have hc : c ≠ sep := fun he => h (he ▸ List.mem_cons_self c t)
    have ht : sep ∉ t := fun hm => h (List.mem_cons_of_mem c hm)
    simp only [splitOnChar, if_neg hc, ih ht]
    rfl

theorem splitOnChar_append_sep (sep : Char) (a b : FStr) (h : sep ∉ a) :
    splitOnChar sep (a ++ sep :: b) = a :: splitOnChar sep b := by
  induction a with
  | nil =>
    show splitOnChar sep (sep :: b) = [] :: splitOnChar sep b
    simp [splitOnChar]
  | cons c a ih =>
    have hc : c ≠ sep := fun he => h (he ▸ List.mem_cons_self c a)
    have ha : sep ∉ a := fun hm => h (List.mem_cons_of_mem c hm)
    show splitOnChar sep (c :: (a ++ sep :: b)) = (c :: a) :: splitOnChar sep b
    simp only [splitOnChar, if_neg hc, ih ha]
    rfl

theorem splitOnChar_joinPipe_sep (ts : List FStr) (tail : FStr)
    (h : ∀ t ∈ ts, '|' ∉ t) (hne : ts ≠ []) :
    splitOnChar '|' (joinPipe ts ++ '|' :: tail) = ts ++ splitOnChar '|' tail := by
  induction ts with
  | nil => exact absurd rfl hne
  | cons t ts ih =>
    by_cases hts : ts = []
    · subst hts
      show splitOnChar '|' ((t ++ pipeCat []) ++ '|' :: tail) = _
      have hp : (t ++ pipeCat []) ++ '|' :: tail = t ++ '|' :: tail := by
        simp [pipeCat]
      rw [hp, splitOnChar_append_sep '|' t tail (h t (List.mem_cons_self t []))]
      rfl
    · have hj : joinPipe (t :: ts) ++ '|' :: tail = t ++ '|' :: (joinPipe ts ++ '|' :: tail) := by
        show (t ++ pipeCat ts) ++ '|' :: tail = _
        rw [pipeCat_eq_joinPipe ts hts]
        simp
      rw [hj, splitOnChar_append_sep '|' t _ (h t (List.mem_cons_self t ts)),
        ih (fun x hx => h x (List.mem_cons_of_mem t hx)) hts]
      rfl

theorem toPipe_of_no_soh (s : FStr) (h : Char.ofNat 1 ∉ s) : toPipe s = s := by
  induction s with
  | nil => rfl
  | cons c s ih =>
    have hc : c ≠ Char.ofNat 1 := fun he => h (he ▸ List.mem_cons_self c s)
    have hs : Char.ofNat 1 ∉ s := fun hm => h (List.mem_cons_of_mem c hm)
    show (if c = Char.ofNat 1 then '|' else c) :: toPipe s = c :: s
    rw [if_neg hc, ih hs]

theorem isAlphanum_ne {c d : Char} (h : c.isAlphanum = true) (hd : d.isAlphanum = false) :
    c ≠ d := by
  intro he
  rw [he, hd] at h
  exact Bool.false_ne_true h

/-- The merge of an admissible override list over the seed `Logon`
template updates the four plain fields in place and nothing else. -/
theorem merge_shape : ∀ (ov : List (FStr × FStr)), admissibleOv ov → ∀ a b c d : FStr,
    (ov.foldl (fun acc kv => imInsert acc kv.1 kv.2)
      [(kBeginString, ("FIX.4.2".data)), (kBodyLength, []), (kMsgType, kLogon),
       (kMsgSeqNum, ("1".data)), (kSenderCompID, a), (kTargetCompID, b),
       (kEncryptMethod, c), (kHeartBtInt, d), (kCheckSum, [])]) =
      [(kBeginString, ("FIX.4.2".data)), (kBodyLength, []), (kMsgType, kLogon),
       (kMsgSeqNum, ("1".data)), (kSenderCompID, ovVal ov kSenderCompID a),
       (kTargetCompID, ovVal ov kTargetCompID b),
       (kEncryptMethod, ovVal ov kEncryptMethod c),
       (kHeartBtInt, ovVal ov kHeartBtInt d), (kCheckSum, [])] := by
  intro ov
  induction ov with
  | nil => intro _ a b c d; rfl
  | cons kv ov ih =>
    intro hadm a b c d
    have hk := hadm kv (List.mem_cons_self kv ov)
    have hadm2 : admissibleOv ov := fun x hx => hadm x (List.mem_cons_of_mem kv hx)
    rw [List.foldl_cons]
    rcases hk.1 with hkey | hkey | hkey | hkey
    · rw [hkey]
      have h1 : imInsert [(kBeginString, ("FIX.4.2".data)), (kBodyLength, []),
          (kMsgType, kLogon), (kMsgSeqNum, ("1".data)), (kSenderCompID, a),
          (kTargetCompID, b), (kEncryptMethod, c), (kHeartBtInt, d), (kCheckSum, [])]
          kSenderCompID kv.2 =
          [(kBeginString, ("FIX.4.2".data)), (kBodyLength, []), (kMsgType, kLogon),
           (kMsgSeqNum, ("1".data)), (kSenderCompID, kv.2), (kTargetCompID, b),
           (kEncryptMethod, c), (kHeartBtInt, d), (kCheckSum, [])] := rfl
      rw [h1, ih hadm2 kv.2 b c d]
      have v1 : ovVal (kv :: ov) kSenderCompID a = ovVal ov kSenderCompID kv.2 := by
        unfold ovVal
        rw [List.foldl_cons, if_pos hkey]
      have v2 : ovVal (kv :: ov) kTargetCompID b = ovVal ov kTargetCompID b := by
        unfold ovVal
        rw [List.foldl_cons, if_neg (by rw [hkey]; decide)]
      have v3 : ovVal (kv :: ov) kEncryptMethod c = ovVal ov kEncryptMethod c := by
        unfold ovVal
        rw [List.foldl_cons, if_neg (by rw [hkey]; decide)]
      have v4 : ovVal (kv :: ov) kHeartBtInt d = ovVal ov kHeartBtInt d := by
        unfold ovVal
        rw [List.foldl_cons, if_neg (by rw [hkey]; decide)]
      rw [v1, v2, v3, v4]
    · rw [hkey]
      have h1 : imInsert [(kBeginString, ("FIX.4.2".data)), (kBodyLength, []),
          (kMsgType, kLogon), (kMsgSeqNum, ("1".data)), (kSenderCompID, a),
          (kTargetCompID, b), (kEncryptMethod, c), (kHeartBtInt, d), (kCheckSum, [])]
          kTargetCompID kv.2 =
          [(kBeginString, ("FIX.4.2".data)), (kBodyLength, []), (kMsgType, kLogon),
           (kMsgSeqNum, ("1".data)), (kSenderCompID, a), (kTargetCompID, kv.2),
           (kEncryptMethod, c), (kHeartBtInt, d), (kCheckSum, [])] := rfl
      rw [h1, ih hadm2 a kv.2 c d]
      have v1 : ovVal (kv :: ov) kSenderCompID a = ovVal ov kSenderCompID a := by
        unfold ovVal
        rw [List.foldl_cons, if_neg (by rw [hkey]; decide)]
      have v2 : ovVal (kv :: ov) kTargetCompID b = ovVal ov kTargetCompID kv.2 := by
        unfold ovVal
        rw [List.foldl_cons, if_pos hkey]
      have v3 : ovVal (kv :: ov) kEncryptMethod c = ovVal ov kEncryptMethod c := by
        unfold ovVal
        rw [List.foldl_cons, if_neg (by rw [hkey]; decide)]
      have v4 : ovVal (kv :: ov) kHeartBtInt d = ovVal ov kHeartBtInt d := by
        unfold ovVal
        rw [List.foldl_cons, if_neg (by rw [hkey]; decide)]
      rw [v1, v2, v3, v4]
    · rw [hkey]
      have h1 : imInsert [(kBeginString, ("FIX.4.2".data)), (kBodyLength, []),
          (kMsgType, kLogon), (kMsgSeqNum, ("1".data)), (kSenderCompID, a),
          (kTargetCompID, b), (kEncryptMethod, c), (kHeartBtInt, d), (kCheckSum, [])]
          kEncryptMethod kv.2 =
          [(kBeginString, ("FIX.4.2".data)), (kBodyLength, []), (kMsgType, kLogon),
           (kMsgSeqNum, ("1".data)), (kSenderCompID, a), (kTargetCompID, b),
           (kEncryptMethod, kv.2), (kHeartBtInt, d), (kCheckSum, [])] := rfl
      rw [h1, ih hadm2 a b kv.2 d]
      have v1 : ovVal (kv :: ov) kSenderCompID a = ovVal ov kSenderCompID a := by
        unfold ovVal
        rw [List.foldl_cons, if_neg (by rw [hkey]; decide)]
      have v2 : ovVal (kv :: ov) kTargetCompID b = ovVal ov kTargetCompID b := by
        unfold ovVal
        rw [List.foldl_cons, if_neg (by rw [hkey]; decide)]
      have v3 : ovVal (kv :: ov) kEncryptMethod c = ovVal ov kEncryptMethod kv.2 := by
        unfold ovVal
        rw [List.foldl_cons, if_pos hkey]
      have v4 : ovVal (kv :: ov) kHeartBtInt d = ovVal ov kHeartBtInt d := by
        unfold ovVal
        rw [List.foldl_cons, if_neg (by rw [hkey]; decide)]
      rw [v1, v2, v3, v4]
    · rw [hkey]
      have h1 : imInsert [(kBeginString, ("FIX.4.2".data)), (kBodyLength, []),
          (kMsgType, kLogon), (kMsgSeqNum, ("1".data)), (kSenderCompID, a),
          (kTargetCompID, b), (kEncryptMethod, c), (kHeartBtInt, d), (kCheckSum, [])]
          kHeartBtInt kv.2 =
          [(kBeginString, ("FIX.4.2".data)), (kBodyLength, []), (kMsgType, kLogon),
           (kMsgSeqNum, ("1".data)), (kSenderCompID, a), (kTargetCompID, b),
           (kEncryptMethod, c), (kHeartBtInt, kv.2), (kCheckSum, [])] := rfl
      rw [h1, ih hadm2 a b c kv.2]
      have v1 : ovVal (kv :: ov) kSenderCompID a = ovVal ov kSenderCompID a := by
        unfold ovVal
        rw [List.foldl_cons, if_neg (by rw [hkey]; decide)]
      have v2 : ovVal (kv :: ov) kTargetCompID b = ovVal ov kTargetCompID b := by
        unfold ovVal
        rw [List.foldl_cons, if_neg (by rw [hkey]; decide)]
      have v3 : ovVal (kv :: ov) kEncryptMethod c = ovVal ov kEncryptMethod c := by
        unfold ovVal
        rw [List.foldl_cons, if_neg (by rw [hkey]; decide)]
      have v4 : ovVal (kv :: ov) kHeartBtInt d = ovVal ov kHeartBtInt kv.2 := by
        unfold ovVal
        rw [List.foldl_cons, if_pos hkey]
      rw [v1, v2, v3, v4]

theorem decStep_plain (map : List (Nat × FixTag)) (st : FStr × List (FStr × FStr))
    (numc val : FStr) (tagn : Nat) (td : FixTag)
    (hnum : '=' ∉ numc) (hval : '=' ∉ val)
    (hparse : rustParseU32 numc = some tagn)
    (hlook : nlookup map tagn = some td)
    (he : td.enum_values = none) :
    decStep map st (numc ++ '=' :: val) = (st.1, imEntryOr st.2 td.name val) := by
  have hs : splitOnChar '=' (numc ++ '=' :: val) = [numc, val] := by
    rw [splitOnChar_append_sep '=' numc val hnum, splitOnChar_no_sep '=' val hval]
  unfold decStep
  rw [hs]
  simp only
  rw [hparse]
  simp only
  rw [hlook]
  simp only [he]

theorem ovVal_alphanum : ∀ (ov : List (FStr × FStr)), admissibleOv ov → ∀ (k dflt : FStr),
    (∀ c ∈ dflt, c.isAlphanum = true) → ∀ c ∈ ovVal ov k dflt, c.isAlphanum = true := by
  intro ov
  induction ov with
  | nil => intro _ k dflt hd; exact hd
  | cons kv ov ih =>
    intro hadm k dflt hd
    have hk := hadm kv (List.mem_cons_self kv ov)
    have hadm2 : admissibleOv ov := fun x hx => hadm x (List.mem_cons_of_mem kv hx)
    show ∀ c ∈ ov.foldl (fun acc kv => if kv.1 = k then kv.2 else acc)
      (if kv.1 = k then kv.2 else dflt), c.isAlphanum = true
    by_cases hkk : kv.1 = k
    · rw [if_pos hkk]
      exact ih hadm2 k kv.2 hk.2
    · rw [if_neg hkk]
      exact ih hadm2 k dflt hd

theorem alphanum_no_special (v : FStr) (h : ∀ c ∈ v, c.isAlphanum = true) :
    '#' ∉ v ∧ '|' ∉ v ∧ '=' ∉ v ∧ Char.ofNat 1 ∉ v :=
  ⟨fun hm => absurd rfl (isAlphanum_ne (h _ hm) (by decide)),
   fun hm => absurd rfl (isAlphanum_ne (h _ hm) (by decide)),
   fun hm => absurd rfl (isAlphanum_ne (h _ hm) (by decide)),
   fun hm => absurd rfl (isAlphanum_ne (h _ hm) (by decide))⟩

theorem digit_no_special (v : FStr) (h : ∀ c ∈ v, c.isDigit = true) :
    '#' ∉ v ∧ '|' ∉ v ∧ '=' ∉ v ∧ Char.ofNat 1 ∉ v :=
  ⟨fun hm => absurd rfl (isDigit_ne (h _ hm) (by decide)),
   fun hm => absurd rfl (isDigit_ne (h _ hm) (by decide)),
   fun hm => absurd rfl (isDigit_ne (h _ hm) (by decide)),
   fun hm => absurd rfl (isDigit_ne (h _ hm) (by decide))⟩

theorem replaceHash_pipeCat (ts : List FStr) (d : FStr) :
    replaceHash (pipeCat ts) d = pipeCat (ts.map (fun t => replaceHash t d)) := by
  induction ts with
  | nil => rfl
  | cons t ts ih =>
    rw [pipeCat_cons, replaceHash_cons, if_neg (by decide : ¬ ('|' = '#')),
      replaceHash_append, ih, List.map_cons, pipeCat_cons]
    rfl

theorem replaceHash_joinPipe (ts : List FStr) (d : FStr) :
    replaceHash (joinPipe ts) d = joinPipe (ts.map (fun t => replaceHash t d)) := by
  cases ts with
  | nil => rfl
  | cons t ts =>
    show replaceHash (t ++ pipeCat ts) d = replaceHash t d ++ pipeCat (ts.map _)
    rw [replaceHash_append, replaceHash_pipeCat]

theorem joinPipe_append_singleton (ts : List FStr) (u : FStr) (hne : ts ≠ []) :
    joinPipe (ts ++ [u]) = joinPipe ts ++ '|' :: u := by
  induction ts with
  | nil => exact absurd rfl hne
  | cons t ts ih =>
    by_cases hts : ts = []
    · subst hts
      show t ++ pipeCat [u] = (t ++ pipeCat []) ++ '|' :: u
      simp [pipeCat]
    · show t ++ pipeCat (ts ++ [u]) = (t ++ pipeCat ts) ++ '|' :: u
      have hp : pipeCat (ts ++ [u]) = pipeCat ts ++ '|' :: u := by
        rw [pipeCat_eq_joinPipe _ (by simp), pipeCat_eq_joinPipe _ hts, ih hts]
        rfl
      rw [hp]
      simp

theorem mem_joinPipe_cases {c : Char} (ts : List FStr) (h : c ∈ joinPipe ts) :
    c = '|' ∨ ∃ t ∈ ts, c ∈ t := by
  cases ts with
  | nil => cases h
  | cons t ts =>
    rcases List.mem_append.mp h with h1 | h1
    · exact Or.inr ⟨t, List.mem_cons_self t ts, h1⟩
    · rcases List.mem_flatMap.mp h1 with ⟨u, hu, hcu⟩
      rcases List.mem_cons.mp hcu with he | he
      · exact Or.inl he
      · exact Or.inr ⟨u, List.mem_cons_of_mem t hu, he⟩

/-- C6 counterexample: on the (spec-modelled) seed `Logon` template with
no overrides, sequence number 1, decoding the encoded message does not
yield the template's message name together with the merged field map
modulo only `SendingTime`/`MsgSeqNum`: the decoded name is the enum
description `LOGON`, not the template key `Logon` (and the decoded
`BodyLength`/`CheckSum` carry the computed values `41`/`094`, not the
template's empty strings). -/
theorem c6_counterexample :
    ¬ roundTripClaim kLogon logonTmpl seedAppMsg seedNameDict seedNumDict none 1 now0 := by
  intro hcl
  obtain ⟨dname, dm, heq, hname, -, -, -⟩ := hcl
  have hcomp : fixmsg2msgtype (msgtype2fixmsg kLogon seedAppMsg seedNameDict none 1 now0)
      seedNumDict =
      .ok (("LOGON".data),
        [(kBeginString, ("FIX.4.2".data)), (kBodyLength, ("41".data)),
         (kMsgType, ("LOGON".data)), (kMsgSeqNum, ("1".data)),
         (kSenderCompID, ("ENGINE".data)), (kTargetCompID, ("VENUE".data)),
         (kEncryptMethod, ("0".data)), (kHeartBtInt, ("30".data)),
         (kCheckSum, ("094".data))]) := rfl
  rw [hcomp] at heq
  have h1 : (("LOGON".data : FStr),
      [(kBeginString, ("FIX.4.2".data)), (kBodyLength, ("41".data)),
       (kMsgType, ("LOGON".data)), (kMsgSeqNum, ("1".data)),
       (kSenderCompID, ("ENGINE".data)), (kTargetCompID, ("VENUE".data)),
       (kEncryptMethod, ("0".data)), (kHeartBtInt, ("30".data)),
       (kCheckSum, ("094".data))]) = (dname, dm) := by
    injection heq
  have ha : ("LOGON".data : FStr) = dname := congrArg Prod.fst h1
  rw [← ha] at hname
  exact absurd hname (by decide)

theorem no_mem_tag (c : Char) (numc v : FStr) (hc : c ≠ '=') (h1 : c ∉ numc)
    (h2 : c ∉ v) : c ∉ numc ++ '=' :: v := by
  intro h
  rcases List.mem_append.mp h with h | h
  · exact h1 h
  · rcases List.mem_cons.mp h with h | h
    · exact hc h
    · exact h2 h

theorem decStep_f1 (st : FStr × List (FStr × FStr)) :
    decStep seedNumDict st ("8=FIX.4.2".data) =
      (st.1, imEntryOr st.2 kBeginString ("FIX.4.2".data)) := rfl

theorem decStep_f3 (st : FStr × List (FStr × FStr)) :
    decStep seedNumDict st ("35=A".data) =
      (("LOGON".data), imEntryOr st.2 kMsgType ("LOGON".data)) := rfl

theorem decStep_empty (st : FStr × List (FStr × FStr)) :
    decStep seedNumDict st [] = st := rfl

set_option maxHeartbeats 1600000 in
/-- C6 amended: for the (spec-modelled) seed `Logon` template set, every
admissible override list and every sequence number, decoding the encoded
message yields the `MsgType` code's enum description as the type name and
the merge of the overrides over the template — except that the decoded
`MsgSeqNum` is the passed sequence number, the decoded `MsgType` is the
enum description of its encoded code, and the decoded `BodyLength` and
`CheckSum` carry the encoder's computed values. -/
theorem c6_roundtrip_modulo_computed (n : Nat) (now : FStr) (ov : List (FStr × FStr))
    (hov : admissibleOv ov) :
    ∃ dm L v,
      fixmsg2msgtype (msgtype2fixmsg kLogon seedAppMsg seedNameDict (some ov) n now)
        seedNumDict = .ok (("LOGON".data), dm) ∧
      (∀ k, k ≠ kMsgType → k ≠ kMsgSeqNum → k ≠ kBodyLength → k ≠ kCheckSum →
        alookup dm k = alookup (mergeOverride logonTmpl (some ov)) k) ∧
      alookup dm kMsgSeqNum = some (natStr n) ∧
      alookup dm kMsgType = some ("LOGON".data) ∧
      alookup dm kBodyLength = some (natStr L) ∧
      v < 256 ∧ alookup dm kCheckSum = some (u8Pad3 v) := by
  obtain ⟨A, hA⟩ : ∃ x, ovVal ov kSenderCompID ("ENGINE".data) = x := ⟨_, rfl⟩
  obtain ⟨B, hB⟩ : ∃ x, ovVal ov kTargetCompID ("VENUE".data) = x := ⟨_, rfl⟩
  obtain ⟨C, hC⟩ : ∃ x, ovVal ov kEncryptMethod ("0".data) = x := ⟨_, rfl⟩
  obtain ⟨D, hD⟩ : ∃ x, ovVal ov kHeartBtInt ("30".data) = x := ⟨_, rfl⟩
  have hAsp := alphanum_no_special A
    (hA ▸ ovVal_alphanum ov hov kSenderCompID ("ENGINE".data) (by decide))
  have hBsp := alphanum_no_special B
    (hB ▸ ovVal_alphanum ov hov kTargetCompID ("VENUE".data) (by decide))
  have hCsp := alphanum_no_special C
    (hC ▸ ovVal_alphanum ov hov kEncryptMethod ("0".data) (by decide))
  have hDsp := alphanum_no_special D
    (hD ▸ ovVal_alphanum ov hov kHeartBtInt ("30".data) (by decide))
  have hm : mergeOverride logonTmpl (some ov) =
      [(kBeginString, ("FIX.4.2".data)), (kBodyLength, []), (kMsgType, kLogon),
       (kMsgSeqNum, ("1".data)), (kSenderCompID, A), (kTargetCompID, B),
       (kEncryptMethod, C), (kHeartBtInt, D), (kCheckSum, [])] := by
    have h0 := merge_shape ov hov ("ENGINE".data) ("VENUE".data) ("0".data) ("30".data)
    rw [hA, hB, hC, hD] at h0
    exact h0
  obtain ⟨Lval, hLval⟩ : ∃ x,
      (([(kBeginString, ("FIX.4.2".data)), (kBodyLength, []), (kMsgType, kLogon),
        (kMsgSeqNum, ("1".data)), (kSenderCompID, A), (kTargetCompID, B),
        (kEncryptMethod, C), (kHeartBtInt, D), (kCheckSum, [])]).foldl
        (encStep (emitTagCore (fun _ => none) seedNameDict now n)) ([], 0)).2 = x := ⟨_, rfl⟩
  have hLsp := digit_no_special (natStr Lval) (natStr_isDigit Lval)
  have hnsp := digit_no_special (natStr n) (natStr_isDigit n)
  have hfix1 : (([(kBeginString, ("FIX.4.2".data)), (kBodyLength, []), (kMsgType, kLogon),
      (kMsgSeqNum, ("1".data)), (kSenderCompID, A), (kTargetCompID, B),
      (kEncryptMethod, C), (kHeartBtInt, D), (kCheckSum, [])]).foldl
      (encStep (emitTagCore (fun _ => none) seedNameDict now n)) ([], 0)).1 =
      joinPipe [("8=FIX.4.2".data), ("9=#".data), ("35=A".data),
        ("34".data) ++ '=' :: natStr n, ("49".data) ++ '=' :: A,
        ("56".data) ++ '=' :: B, ("98".data) ++ '=' :: C, ("108".data) ++ '=' :: D] :=
    encStep_foldl_fst_nil (fun kv t h => emitT_ne_nil seedNameDict now n kv t h) _ 0
  have hmsg0 : msgtype2fixmsg kLogon seedAppMsg seedNameDict (some ov) n now =
      finishMsg
        (joinPipe [("8=FIX.4.2".data), ("9=#".data), ("35=A".data),
          ("34".data) ++ '=' :: natStr n, ("49".data) ++ '=' :: A,
          ("56".data) ++ '=' :: B, ("98".data) ++ '=' :: C, ("108".data) ++ '=' :: D])
        Lval (fun checksum => (checksum + 1) % 256) := by
    simp only [msgtype2fixmsg]
    rw [show alookup seedAppMsg kLogon = some logonTmpl from rfl]
    simp only
    rw [hm, hfix1, hLval]
  have hrh : replaceHash (joinPipe [("8=FIX.4.2".data), ("9=#".data), ("35=A".data),
      ("34".data) ++ '=' :: natStr n, ("49".data) ++ '=' :: A,
      ("56".data) ++ '=' :: B, ("98".data) ++ '=' :: C, ("108".data) ++ '=' :: D])
      (natStr Lval) =
      joinPipe [("8=FIX.4.2".data), ("9".data) ++ '=' :: natStr Lval, ("35=A".data),
        ("34".data) ++ '=' :: natStr n, ("49".data) ++ '=' :: A,
        ("56".data) ++ '=' :: B, ("98".data) ++ '=' :: C, ("108".data) ++ '=' :: D] := by
    rw [replaceHash_joinPipe]
    simp only [List.map_cons, List.map_nil]
    rw [replaceHash_of_no_hash ("8=FIX.4.2".data) _ (by decide),
      show replaceHash ("9=#".data) (natStr Lval) = ("9".data) ++ '=' :: natStr Lval by
        simp [replaceHash],
      replaceHash_of_no_hash ("35=A".data) _ (by decide),
      replaceHash_of_no_hash (("34".data) ++ '=' :: natStr n) _
        (no_mem_tag '#' _ _ (by decide) (by decide) hnsp.1),
      replaceHash_of_no_hash (("49".data) ++ '=' :: A) _
        (no_mem_tag '#' _ _ (by decide) (by decide) hAsp.1),
      replaceHash_of_no_hash (("56".data) ++ '=' :: B) _
        (no_mem_tag '#' _ _ (by decide) (by decide) hBsp.1),
      replaceHash_of_no_hash (("98".data) ++ '=' :: C) _
        (no_mem_tag '#' _ _ (by decide) (by decide) hCsp.1),
      replaceHash_of_no_hash (("108".data) ++ '=' :: D) _
        (no_mem_tag '#' _ _ (by decide) (by decide) hDsp.1)]
  obtain ⟨V, hVlt, hVdef⟩ : ∃ v, v < 256 ∧
      (u32sum (strBytes (toSoh (joinPipe [("8=FIX.4.2".data),
        ("9".data) ++ '=' :: natStr Lval, ("35=A".data),
        ("34".data) ++ '=' :: natStr n, ("49".data) ++ '=' :: A,
        ("56".data) ++ '=' :: B, ("98".data) ++ '=' :: C,
        ("108".data) ++ '=' :: D]))) + 1) % 256 = v :=
    ⟨_, by omega, rfl⟩
  have hpadsp := digit_no_special (u8Pad3 V) (u8Pad3_isDigit V)
  have hmsg2 : msgtype2fixmsg kLogon seedAppMsg seedNameDict (some ov) n now =
      joinPipe [("8=FIX.4.2".data), ("9".data) ++ '=' :: natStr Lval, ("35=A".data),
        ("34".data) ++ '=' :: natStr n, ("49".data) ++ '=' :: A,
        ("56".data) ++ '=' :: B, ("98".data) ++ '=' :: C, ("108".data) ++ '=' :: D,
        ("10".data) ++ '=' :: u8Pad3 V] ++ '|' :: [] := by
    rw [hmsg0]
    show replaceHash (joinPipe [("8=FIX.4.2".data), ("9=#".data), ("35=A".data),
        ("34".data) ++ '=' :: natStr n, ("49".data) ++ '=' :: A,
        ("56".data) ++ '=' :: B, ("98".data) ++ '=' :: C, ("108".data) ++ '=' :: D])
        (natStr Lval) ++ '|' :: '1' :: '0' :: '=' ::
        u8Pad3 ((u32sum (strBytes (toSoh (replaceHash
          (joinPipe [("8=FIX.4.2".data), ("9=#".data), ("35=A".data),
            ("34".data) ++ '=' :: natStr n, ("49".data) ++ '=' :: A,
            ("56".data) ++ '=' :: B, ("98".data) ++ '=' :: C,
            ("108".data) ++ '=' :: D]) (natStr Lval)))) + 1) % 256) ++ ['|'] = _
    have h9 : joinPipe [("8=FIX.4.2".data), ("9".data) ++ '=' :: natStr Lval,
        ("35=A".data), ("34".data) ++ '=' :: natStr n, ("49".data) ++ '=' :: A,
        ("56".data) ++ '=' :: B, ("98".data) ++ '=' :: C, ("108".data) ++ '=' :: D,
        ("10".data) ++ '=' :: u8Pad3 V] =
        joinPipe [("8=FIX.4.2".data), ("9".data) ++ '=' :: natStr Lval,
          ("35=A".data), ("34".data) ++ '=' :: natStr n, ("49".data) ++ '=' :: A,
          ("56".data) ++ '=' :: B, ("98".data) ++ '=' :: C, ("108".data) ++ '=' :: D] ++
          '|' :: (("10".data) ++ '=' :: u8Pad3 V) :=
      joinPipe_append_singleton [("8=FIX.4.2".data), ("9".data) ++ '=' :: natStr Lval,
        ("35=A".data), ("34".data) ++ '=' :: natStr n, ("49".data) ++ '=' :: A,
        ("56".data) ++ '=' :: B, ("98".data) ++ '=' :: C, ("108".data) ++ '=' :: D]
        (("10".data) ++ '=' :: u8Pad3 V) (by simp)
    rw [hrh, hVdef, h9]
    simp
  have hpipes : ∀ t ∈ [("8=FIX.4.2".data), ("9".data) ++ '=' :: natStr Lval, ("35=A".data),
      ("34".data) ++ '=' :: natStr n, ("49".data) ++ '=' :: A,
      ("56".data) ++ '=' :: B, ("98".data) ++ '=' :: C, ("108".data) ++ '=' :: D,
      ("10".data) ++ '=' :: u8Pad3 V], '|' ∉ t := by
    intro t ht
    simp only [List.mem_cons, List.not_mem_nil, or_false] at ht
    rcases ht with rfl | rfl | rfl | rfl | rfl | rfl | rfl | rfl | rfl
    · decide
    · exact no_mem_tag '|' _ _ (by decide) (by decide) hLsp.2.1
    · decide
    · exact no_mem_tag '|' _ _ (by decide) (by decide) hnsp.2.1
    · exact no_mem_tag '|' _ _ (by decide) (by decide) hAsp.2.1
    · exact no_mem_tag '|' _ _ (by decide) (by decide) hBsp.2.1
    · exact no_mem_tag '|' _ _ (by decide) (by decide) hCsp.2.1
    · exact no_mem_tag '|' _ _ (by decide) (by decide) hDsp.2.1
    · exact no_mem_tag '|' _ _ (by decide) (by decide) hpadsp.2.1
  have hsohs : ∀ t ∈ [("8=FIX.4.2".data), ("9".data) ++ '=' :: natStr Lval, ("35=A".data),
      ("34".data) ++ '=' :: natStr n, ("49".data) ++ '=' :: A,
      ("56".data) ++ '=' :: B, ("98".data) ++ '=' :: C, ("108".data) ++ '=' :: D,
      ("10".data) ++ '=' :: u8Pad3 V], Char.ofNat 1 ∉ t := by
    intro t ht
    simp only [List.mem_cons, List.not_mem_nil, or_false] at ht
    rcases ht with rfl | rfl | rfl | rfl | rfl | rfl | rfl | rfl | rfl
    · decide
    · exact no_mem_tag _ _ _ (by decide) (by decide) hLsp.2.2.2
    · decide
    · exact no_mem_tag _ _ _ (by decide) (by decide) hnsp.2.2.2
    · exact no_mem_tag _ _ _ (by decide) (by decide) hAsp.2.2.2
    · exact no_mem_tag _ _ _ (by decide) (by decide) hBsp.2.2.2
    · exact no_mem_tag _ _ _ (by decide) (by decide) hCsp.2.2.2
    · exact no_mem_tag _ _ _ (by decide) (by decide) hDsp.2.2.2
    · exact no_mem_tag _ _ _ (by decide) (by decide) hpadsp.2.2.2
  have hsoh : Char.ofNat 1 ∉ joinPipe [("8=FIX.4.2".data),
      ("9".data) ++ '=' :: natStr Lval, ("35=A".data),
      ("34".data) ++ '=' :: natStr n, ("49".data) ++ '=' :: A,
      ("56".data) ++ '=' :: B, ("98".data) ++ '=' :: C, ("108".data) ++ '=' :: D,
      ("10".data) ++ '=' :: u8Pad3 V] ++ '|' :: [] := by
    intro h
    rcases List.mem_append.mp h with h | h
    · rcases mem_joinPipe_cases _ h with he | ⟨t, ht, hct⟩
      · exact absurd he (by decide)
      · exact hsohs t ht hct
    · rcases List.mem_cons.mp h with he | he
      · exact absurd he (by decide)
      · cases he
  have hfields : splitOnChar '|'
      (toPipe (msgtype2fixmsg kLogon seedAppMsg seedNameDict (some ov) n now)) =
      [("8=FIX.4.2".data), ("9".data) ++ '=' :: natStr Lval, ("35=A".data),
       ("34".data) ++ '=' :: natStr n, ("49".data) ++ '=' :: A,
       ("56".data) ++ '=' :: B, ("98".data) ++ '=' :: C, ("108".data) ++ '=' :: D,
       ("10".data) ++ '=' :: u8Pad3 V, []] := by
    rw [hmsg2, toPipe_of_no_soh _ hsoh, splitOnChar_joinPipe_sep _ _ hpipes (by simp)]
    rfl
  have hdec : fixmsg2msgtype (msgtype2fixmsg kLogon seedAppMsg seedNameDict (some ov) n now)
      seedNumDict =
      .ok (("LOGON".data),
        [(kBeginString, ("FIX.4.2".data)), (kBodyLength, natStr Lval),
         (kMsgType, ("LOGON".data)), (kMsgSeqNum, natStr n), (kSenderCompID, A),
         (kTargetCompID, B), (kEncryptMethod, C), (kHeartBtInt, D),
         (kCheckSum, u8Pad3 V)]) := by
    simp only [fixmsg2msgtype]
    rw [hfields,
      List.foldl_cons, decStep_f1,
      List.foldl_cons, decStep_plain seedNumDict _ ("9".data) (natStr Lval) 9
        (mkTag ("9".data) kBodyLength none) (by decide) hLsp.2.2.1 (by decide) rfl rfl,
      List.foldl_cons, decStep_f3,
      List.foldl_cons, decStep_plain seedNumDict _ ("34".data) (natStr n) 34
        (mkTag ("34".data) kMsgSeqNum none) (by decide) hnsp.2.2.1 (by decide) rfl rfl,
      List.foldl_cons, decStep_plain seedNumDict _ ("49".data) A 49
        (mkTag ("49".data) kSenderCompID none) (by decide) hAsp.2.2.1 (by decide) rfl rfl,
      List.foldl_cons, decStep_plain seedNumDict _ ("56".data) B 56
        (mkTag ("56".data) kTargetCompID none) (by decide) hBsp.2.2.1 (by decide) rfl rfl,
      List.foldl_cons, decStep_plain seedNumDict _ ("98".data) C 98
        (mkTag ("98".data) kEncryptMethod none) (by decide) hCsp.2.2.1 (by decide) rfl rfl,
      List.foldl_cons, decStep_plain seedNumDict _ ("108".data) D 108
        (mkTag ("108".data) kHeartBtInt none) (by decide) hDsp.2.2.1 (by decide) rfl rfl,
      List.foldl_cons, decStep_plain seedNumDict _ ("10".data) (u8Pad3 V) 10
        (mkTag ("10".data) kCheckSum none) (by decide) hpadsp.2.2.1 (by decide) rfl rfl,
      List.foldl_cons, decStep_empty, List.foldl_nil]
    rfl
  refine ⟨[(kBeginString, ("FIX.4.2".data)), (kBodyLength, natStr Lval),
    (kMsgType, ("LOGON".data)), (kMsgSeqNum, natStr n), (kSenderCompID, A),
    (kTargetCompID, B), (kEncryptMethod, C), (kHeartBtInt, D),
    (kCheckSum, u8Pad3 V)], Lval, V, hdec, ?_, rfl, rfl, rfl, hVlt, rfl⟩
  intro k h1 h2 h3 h4
  rw [hm]
  simp only [alookup]
  split_ifs with g1 g2 g3 g4 g5 g6 g7 g8 g9
  · rfl
  · exact absurd g2.symm h3
  · exact absurd g3.symm h1
  · exact absurd g4.symm h2
  · rfl
  · rfl
  · rfl
  · rfl
  · exact absurd g9.symm h4
  · rfl

/-- Witness for the amended C6 at sequence number 1 and the empty
override list. -/
theorem c6_roundtrip_modulo_computed_witness :
    ∃ dm L v,
      fixmsg2msgtype (msgtype2fixmsg kLogon seedAppMsg seedNameDict (some []) 1 now0)
        seedNumDict = .ok (("LOGON".data), dm) ∧
      (∀ k, k ≠ kMsgType → k ≠ kMsgSeqNum → k ≠ kBodyLength → k ≠ kCheckSum →
        alookup dm k = alookup (mergeOverride logonTmpl (some [])) k) ∧
      alookup dm kMsgSeqNum = some (natStr 1) ∧
      alookup dm kMsgType = some ("LOGON".data) ∧
      alookup dm kBodyLength = some (natStr L) ∧
      v < 256 ∧ alookup dm kCheckSum = some (u8Pad3 v) :=
  c6_roundtrip_modulo_computed 1 now0 []
    (fun kv hkv => absurd hkv (List.not_mem_nil kv))

end FixEngine
